import Mathlib

/-
  Verification development for the SPECTRE OSINT platform's case-management
  subsystem (js/case-manager.js), its persistence adapter (js/storage.js)
  and the string utilities they use (SPECTRE_UTILS.string in js/utils.js).

  Modelling conventions:
  * The JavaScript runs single-threaded in one initialized browser session:
    `SPECTRE_CASES.init()` has populated `_cache.cases`, and every
    `SPECTRE_STORAGE.set` on the cases key succeeds, so the in-memory cases
    cache and the persisted cases blob always hold the same list; the model
    keeps one list `Store.cases` for both.
  * `_cache.activeCase` (a reference to a case object, or null) is modelled
    by `Store.cachedActive : Option Case`.  In the source the cached object
    aliases the list element while the case is in the list; every public
    mutator ends in `updateCase`, which replaces the list element and
    refreshes the cache when the ids match, so modelling the cache as a copy
    that `updateCase` refreshes is observationally equivalent.
  * The `spectre-active-case` storage key is `Store.storedActiveId`.
  * `Date.now()` timestamps and `SPECTRE_UTILS.string.uniqueId` results are
    oracle inputs (`now : Nat`, `newId : String`) passed to each operation.
  * JavaScript `while` loops are embedded with an explicit fuel that bounds
    the number of iterations (each loop removes one list element per
    iteration, so the initial length is always enough fuel); this keeps all
    definitions structurally recursive and kernel-evaluable.
-/

set_option autoImplicit false
set_option maxRecDepth 100000

namespace Spectre

/-- CONFIG.MAX_CASES in js/case-manager.js. -/
def MAX_CASES : Nat := 50

/-- CONFIG.MAX_FINDINGS_PER_CASE in js/case-manager.js. -/
def MAX_FINDINGS_PER_CASE : Nat := 500

/-- CONFIG.TOOL_STATUSES in js/case-manager.js. -/
def TOOL_STATUSES : List String :=
  ["unchecked", "useful", "dead-end", "follow-up", "in-progress"]

/-- STATUS_CONFIG in js/case-manager.js as (status, icon, label) triples
(the color, a CSS variable, is presentation-only and not modelled). -/
def STATUS_CONFIG : List (String × String × String) :=
  [("unchecked", "⬜", "Unchecked"), ("useful", "✅", "Useful"),
   ("dead-end", "❌", "Dead End"), ("follow-up", "🔔", "Follow Up"),
   ("in-progress", "🔄", "In Progress")]

/-- One timeline entry: `{ type, timestamp, description }`. -/
structure TimelineEvent where
  type : String
  timestamp : Nat
  description : String
deriving DecidableEq, Repr

/-- One finding, as built by `addFinding`. -/
structure Finding where
  id : String
  timestamp : Nat
  toolId : Option String
  toolName : String
  toolUrl : String
  category : String
  title : String
  content : String
  importance : String
  tags : List String
  attachments : List String
deriving DecidableEq, Repr

/-- One note, as built by `addNote`. -/
structure Note where
  id : String
  timestamp : Nat
  content : String
deriving DecidableEq, Repr

/-- The link projection `{id, name, url, badge, category}` stored by
`saveSearchToCase`; also the shape of the generated links it receives. -/
structure LinkRef where
  id : String
  name : String
  url : String
  badge : String
  category : String
deriving DecidableEq, Repr

/-- The identity-attribute fields that `formatSearchSummary` reads from a
search-values object; an empty string models a missing/falsy field. -/
structure SearchValues where
  first : String
  last : String
  username : String
  email : String
  domain : String
  phone : String
  ip : String
deriving DecidableEq, Repr

/-- One search snapshot, as built by `saveSearchToCase`. -/
structure SearchSnapshot where
  id : String
  timestamp : Nat
  values : SearchValues
  toolCount : Nat
  links : List LinkRef
deriving DecidableEq, Repr

/-- The `metadata` sub-object of a case. -/
structure CaseMeta where
  subject : List (String × String)
  assignee : String
  dueDate : Option Nat
deriving DecidableEq, Repr

/-- A case record, field for field as built by `createCase`. -/
structure Case where
  id : String
  name : String
  description : String
  tags : List String
  status : String
  priority : String
  createdAt : Nat
  updatedAt : Nat
  searches : List SearchSnapshot
  findings : List Finding
  toolStatuses : List (String × String)
  notes : List Note
  timeline : List TimelineEvent
  metadata : CaseMeta
deriving DecidableEq, Repr

/-- The `caseData` argument of `createCase`; `none` models an absent key. -/
structure CaseData where
  name : Option String
  description : Option String
  tags : Option (List String)
  status : Option String
  priority : Option String
  subject : Option (List (String × String))
  assignee : Option String
  dueDate : Option Nat
deriving DecidableEq, Repr

/-- The whole case-manager state (see the modelling conventions above). -/
structure Store where
  cases : List Case
  cachedActive : Option Case
  storedActiveId : Option String
deriving DecidableEq, Repr

/-- JavaScript `v || dflt` for an optional string field: an absent key and
the empty string (the only falsy string) both fall back to the default. -/
def strOr (v : Option String) (dflt : String) : String :=
  match v with
  | some s => if s = "" then dflt else s
  | none => dflt

/-- JavaScript `caseData.dueDate || null`: absent and `0` (falsy) give null. -/
def dueDateOr (v : Option Nat) : Option Nat :=
  match v with
  | some t => if t = 0 then none else some t
  | none => none

/-- JavaScript `finding.toolId || null`: absent and `""` give null. -/
def toolIdOr (v : Option String) : Option String :=
  match v with
  | some s => if s = "" then none else some s
  | none => none

/-- Property lookup in an object used as a string map (`caseObj.toolStatuses`),
modelled as an ordered association list. -/
def assocGet (m : List (String × String)) (k : String) : Option String :=
  match m with
  | [] => none
  | (k2, v) :: rest => if k2 = k then some v else assocGet rest k

/-- Property assignment `obj[k] = v` on an object used as a string map:
an existing key keeps its position, a new key is appended (JS key order). -/
def assocSet (m : List (String × String)) (k v : String) : List (String × String) :=
  match m with
  | [] => [(k, v)]
  | (k2, v2) :: rest => if k2 = k then (k, v) :: rest else (k2, v2) :: assocSet rest k v

/-- Array.prototype.find by id (`cases.find(c => c.id === caseId)`),
returning the first match. -/
def findCase : List Case → String → Option Case
  | [], _ => none
  | c :: rest, cid => if c.id = cid then some c else findCase rest cid

/-- The combination `findIndex` + `cases[index] = f(cases[index])` used by
`updateCase` (and the in-place mutations of the object `getCase` returns):
replaces the first case whose id matches, returns the new value. -/
def updateFirst : List Case → String → (Case → Case) → Option Case × List Case
  | [], _, _ => (none, [])
  | c :: rest, cid, f =>
    if c.id = cid then
      let c2 := f c
      (some c2, c2 :: rest)
    else
      let r := updateFirst rest cid f
      (r.1, c :: r.2)

/-- The combination `findIndex` + `splice(index, 1)` used by `deleteCase`:
removes the first case whose id matches. -/
def removeFirst : List Case → String → Bool × List Case
  | [], _ => (false, [])
  | c :: rest, cid =>
    if c.id = cid then (true, rest)
    else
      let r := removeFirst rest cid
      (r.1, c :: r.2)

/-- `getCase(caseId)`: `cases.find(c => c.id === caseId) || null`. -/
def getCase (s : Store) (caseId : String) : Option Case :=
  findCase s.cases caseId

/-- `getActiveCase()`: returns the cached active case if the cache is set
(`!== null`), otherwise resolves the stored active-case id through
`getCase` (null when the key is absent or the id does not resolve). -/
def getActiveCase (s : Store) : Option Case :=
  match s.cachedActive with
  | some c => some c
  | none =>
    match s.storedActiveId with
    | some aid => getCase s aid
    | none => none

/-- The new case object built by `createCase` (defaults applied as in the
source; `status` is the literal "active" and does not read `caseData`). -/
def mkNewCase (caseData : CaseData) (newId : String) (now : Nat) : Case where
  id := newId
  name := strOr caseData.name "Untitled Investigation"
  description := strOr caseData.description ""
  tags := caseData.tags.getD []
  status := "active"
  priority := strOr caseData.priority "medium"
  createdAt := now
  updatedAt := now
  searches := []
  findings := []
  toolStatuses := []
  notes := []
  timeline := [⟨"created", now, "Investigation created"⟩]
  metadata :=
    { subject := caseData.subject.getD []
      assignee := strOr caseData.assignee ""
      dueDate := dueDateOr caseData.dueDate }

/-- The loop `while (cases.length > MAX_CASES) cases.pop()` with explicit
fuel (the initial length always suffices: each `pop` removes one element). -/
def popGo : Nat → List Case → List Case
  | 0, cs => cs
  | fuel + 1, cs => if cs.length > MAX_CASES then popGo fuel cs.dropLast else cs

/-- Eviction applied after `unshift` in `createCase`. -/
def popWhileOver (cs : List Case) : List Case :=
  popGo cs.length cs

/-- `createCase(caseData)`: builds the new case, `unshift`s it, evicts from
the tail while over `MAX_CASES`, persists, returns the created case.  The
active-case cache and pointer are not touched. -/
def createCase (s : Store) (caseData : CaseData) (newId : String) (now : Nat) :
    Case × Store :=
  let newCase := mkNewCase caseData newId now
  let cases := popWhileOver (newCase :: s.cases)
  (newCase, { s with cases := cases })

/-- The `updates` argument of `updateCase`; `none` models an absent key.
`updatedAt` is not here because the source spread
`{...case, ...updates, updatedAt: Date.now()}` always overwrites it last. -/
structure CaseUpdates where
  id : Option String
  name : Option String
  description : Option String
  tags : Option (List String)
  status : Option String
  priority : Option String
  createdAt : Option Nat
  searches : Option (List SearchSnapshot)
  findings : Option (List Finding)
  toolStatuses : Option (List (String × String))
  notes : Option (List Note)
  timeline : Option (List TimelineEvent)
  metadata : Option CaseMeta
deriving DecidableEq, Repr

/-- The empty partial update (all keys absent). -/
def noUpdates : CaseUpdates where
  id := none
  name := none
  description := none
  tags := none
  status := none
  priority := none
  createdAt := none
  searches := none
  findings := none
  toolStatuses := none
  notes := none
  timeline := none
  metadata := none

/-- The shallow merge `{...caseObj, ...updates, updatedAt: Date.now()}`:
every key present in `updates` wins, including `id` and `createdAt`. -/
def applyUpdates (c : Case) (u : CaseUpdates) (now : Nat) : Case where
  id := u.id.getD c.id
  name := u.name.getD c.name
  description := u.description.getD c.description
  tags := u.tags.getD c.tags
  status := u.status.getD c.status
  priority := u.priority.getD c.priority
  createdAt := u.createdAt.getD c.createdAt
  updatedAt := now
  searches := u.searches.getD c.searches
  findings := u.findings.getD c.findings
  toolStatuses := u.toolStatuses.getD c.toolStatuses
  notes := u.notes.getD c.notes
  timeline := u.timeline.getD c.timeline
  metadata := u.metadata.getD c.metadata

/-- `updateCase(caseId, updates)`: merges into the first matching case,
persists, and refreshes the active-case cache when its id matches. -/
def updateCase (s : Store) (caseId : String) (u : CaseUpdates) (now : Nat) :
    Option Case × Store :=
  let r := updateFirst s.cases caseId (fun c => applyUpdates c u now)
  match r.1 with
  | none => (none, s)
  | some updated =>
    let cachedActive :=
      match s.cachedActive with
      | some a => if a.id = caseId then some updated else some a
      | none => none
    (some updated, { s with cases := r.2, cachedActive := cachedActive })

/-- `setActiveCase(caseId)`: null clears cache and stored key; otherwise the
case must exist, and both the cache and the stored key are set. -/
def setActiveCase (s : Store) (caseId : Option String) : Store :=
  match caseId with
  | none => { s with cachedActive := none, storedActiveId := none }
  | some cid =>
    match getCase s cid with
    | some caseObj => { s with cachedActive := some caseObj, storedActiveId := some cid }
    | none => s

/-- `deleteCase(caseId)`: splices out the first matching case, persists, and
clears the active pointer only when the cached active case has this id. -/
def deleteCase (s : Store) (caseId : String) : Bool × Store :=
  let r := removeFirst s.cases caseId
  if r.1 then
    let s2 := { s with cases := r.2 }
    let s3 :=
      match s2.cachedActive with
      | some a => if a.id = caseId then setActiveCase s2 none else s2
      | none => s2
    (true, s3)
  else (false, s)

/-- The timeline trim in `addTimelineEvent`:
`if (timeline.length > 200) timeline = timeline.slice(-200)`. -/
def trimTimeline (t : List TimelineEvent) : List TimelineEvent :=
  if t.length > 200 then t.drop (t.length - 200) else t

/-- `addTimelineEvent(caseId, type, description)`: pushes an event onto the
first matching case's timeline, then trims to the last 200 entries. This
mutates the case object in place and does not persist by itself. -/
def addTimelineEvent (s : Store) (caseId type description : String) (now : Nat) :
    Store :=
  let r := updateFirst s.cases caseId
    (fun c => { c with timeline := trimTimeline (c.timeline ++ [⟨type, now, description⟩]) })
  { s with cases := r.2 }

/-- `formatSearchSummary(values)`: joins the non-empty identity attributes,
falling back to "Unknown" when nothing was captured. -/
def formatSearchSummary (values : SearchValues) : String :=
  let parts : List String :=
    (if values.first ≠ "" ∧ values.last ≠ "" then [values.first ++ " " ++ values.last]
     else if values.first ≠ "" then [values.first] else [])
    ++ (if values.username ≠ "" then ["@" ++ values.username] else [])
    ++ (if values.email ≠ "" then [values.email] else [])
    ++ (if values.domain ≠ "" then [values.domain] else [])
    ++ (if values.phone ≠ "" then [values.phone] else [])
    ++ (if values.ip ≠ "" then [values.ip] else [])
  if parts = [] then "Unknown" else String.intercalate ", " parts

/-- The lookup `STATUS_CONFIG[status]`. -/
def statusConfig (status : String) : Option (String × String) :=
  ((STATUS_CONFIG.find? (fun p => p.1 == status)).map Prod.snd)

/-- The label `STATUS_CONFIG[status].label` (defined statuses only). -/
def statusLabel (status : String) : String :=
  ((statusConfig status).map Prod.snd).getD ""

/-- The icon `STATUS_CONFIG[status].icon` (defined statuses only). -/
def statusIcon (status : String) : String :=
  ((statusConfig status).map Prod.fst).getD ""

/-- `setToolStatus(caseId, toolId, status)`: rejects an undefined status with
`false` before touching anything; otherwise writes the map entry, logs a
timeline event and persists through `updateCase`, returning `true`. -/
def setToolStatus (s : Store) (caseId toolId status : String) (now : Nat) :
    Bool × Store :=
  if TOOL_STATUSES.contains status then
    match getCase s caseId with
    | none => (false, s)
    | some caseObj =>
      let newStatuses := assocSet caseObj.toolStatuses toolId status
      let r := updateFirst s.cases caseId (fun c => { c with toolStatuses := newStatuses })
      let s1 := { s with cases := r.2 }
      let s2 := addTimelineEvent s1 caseId "status"
        ("Tool marked as " ++ statusLabel status) now
      let r2 := updateCase s2 caseId { noUpdates with toolStatuses := some newStatuses } now
      (true, r2.2)
  else (false, s)

/-- The `finding` argument of `addFinding`; `none` models an absent key. -/
structure FindingData where
  toolId : Option String
  toolName : Option String
  toolUrl : Option String
  category : Option String
  title : Option String
  content : Option String
  importance : Option String
  tags : Option (List String)
  attachments : Option (List String)
deriving DecidableEq, Repr

/-- The new finding object built by `addFinding` (defaults as in source). -/
def mkFinding (finding : FindingData) (newId : String) (now : Nat) : Finding where
  id := newId
  timestamp := now
  toolId := toolIdOr finding.toolId
  toolName := strOr finding.toolName ""
  toolUrl := strOr finding.toolUrl ""
  category := strOr finding.category ""
  title := strOr finding.title "Untitled Finding"
  content := strOr finding.content ""
  importance := strOr finding.importance "medium"
  tags := finding.tags.getD []
  attachments := finding.attachments.getD []

/-- The loop `while (findings.length > MAX_FINDINGS_PER_CASE) findings.shift()`
with explicit fuel (the initial length always suffices). -/
def shiftGo : Nat → List Finding → List Finding
  | 0, fs => fs
  | fuel + 1, fs => if fs.length > MAX_FINDINGS_PER_CASE then shiftGo fuel fs.tail else fs

/-- Eviction applied after the push in `addFinding`. -/
def shiftWhileOver (fs : List Finding) : List Finding :=
  shiftGo fs.length fs

/-- `addFinding(caseId, finding)`: builds the finding, pushes it, evicts the
oldest while over the cap, logs a timeline event, persists, and returns it. -/
def addFinding (s : Store) (caseId : String) (finding : FindingData)
    (newId : String) (now : Nat) : Option Finding × Store :=
  match getCase s caseId with
  | none => (none, s)
  | some caseObj =>
    let newFinding := mkFinding finding newId now
    let newFindings := shiftWhileOver (caseObj.findings ++ [newFinding])
    let r := updateFirst s.cases caseId (fun c => { c with findings := newFindings })
    let s1 := { s with cases := r.2 }
    let s2 := addTimelineEvent s1 caseId "finding"
      ("Finding added: " ++ newFinding.title) now
    let r2 := updateCase s2 caseId { noUpdates with findings := some newFindings } now
    (some newFinding, r2.2)

/-- `addNote(caseId, content)`: builds the note, pushes it, logs a timeline
event, persists, and returns it. -/
def addNote (s : Store) (caseId content : String) (newId : String) (now : Nat) :
    Option Note × Store :=
  match getCase s caseId with
  | none => (none, s)
  | some caseObj =>
    let note : Note := ⟨newId, now, content⟩
    let newNotes := caseObj.notes ++ [note]
    let r := updateFirst s.cases caseId (fun c => { c with notes := newNotes })
    let s1 := { s with cases := r.2 }
    let s2 := addTimelineEvent s1 caseId "note" "Note added" now
    let r2 := updateCase s2 caseId { noUpdates with notes := some newNotes } now
    (some note, r2.2)

/-- The search snapshot built by `saveSearchToCase` (the `links.map`
projection keeps exactly the five fields of `LinkRef`). -/
def mkSnapshot (values : SearchValues) (links : List LinkRef) (newId : String)
    (now : Nat) : SearchSnapshot where
  id := newId
  timestamp := now
  values := values
  toolCount := links.length
  links := links.map (fun l =>
    { id := l.id, name := l.name, url := l.url, badge := l.badge, category := l.category })

/-- `saveSearchToCase(searchValues, generatedLinks)`: returns null with no
change when there is no active case; otherwise pushes a snapshot onto the
active case's `searches` (an in-place push on the object `getActiveCase`
returned, hence visible through the cache when the cache supplied it), logs
a timeline event on the stored case, and persists through `updateCase`. -/
def saveSearchToCase (s : Store) (searchValues : SearchValues)
    (generatedLinks : List LinkRef) (newId : String) (now : Nat) :
    Option SearchSnapshot × Store :=
  match getActiveCase s with
  | none => (none, s)
  | some activeCase =>
    let snap := mkSnapshot searchValues generatedLinks newId now
    let newSearches := activeCase.searches ++ [snap]
    let s1 := { s with cachedActive :=
      s.cachedActive.map (fun a => { a with searches := newSearches }) }
    let s2 := addTimelineEvent s1 activeCase.id "search"
      ("Search saved: " ++ formatSearchSummary searchValues) now
    let r := updateCase s2 activeCase.id { noUpdates with searches := some newSearches } now
    (some snap, r.2)

/-- Iterated `addFinding` on one case: each list entry supplies the finding
data together with the id/timestamp oracle values for that call. -/
def insertFindings : Store → String → List (FindingData × String × Nat) → Store
  | s, _, [] => s
  | s, cid, x :: rest => insertFindings (addFinding s cid x.1 x.2.1 x.2.2).2 cid rest

/-- Iterated `createCase`: each entry supplies the case data and the
id/timestamp oracle values for that call. -/
def createAll (s : Store) (inputs : List (CaseData × String × Nat)) : Store :=
  inputs.foldl (fun acc x => (createCase acc x.1 x.2.1 x.2.2).2) s

/-- One call to any of the four timeline-appending mutators, with its
arguments and its id/timestamp oracle values. -/
inductive MutatorCall where
  | saveSearch (values : SearchValues) (links : List LinkRef) (newId : String) (now : Nat)
  | setStatus (toolId status : String) (now : Nat)
  | newFinding (finding : FindingData) (newId : String) (now : Nat)
  | newNote (content : String) (newId : String) (now : Nat)
deriving DecidableEq, Repr

/-- Run one mutator call against the store (`saveSearch` targets the active
case; the other three target `caseId` explicitly). -/
def applyMutator (s : Store) (caseId : String) (m : MutatorCall) : Store :=
  match m with
  | .saveSearch v l i n => (saveSearchToCase s v l i n).2
  | .setStatus t st n => (setToolStatus s caseId t st n).2
  | .newFinding fd i n => (addFinding s caseId fd i n).2
  | .newNote ct i n => (addNote s caseId ct i n).2

/-- The timeline event a mutator call appends (when it appends one). -/
def mutatorEvent (m : MutatorCall) : TimelineEvent :=
  match m with
  | .saveSearch v _ _ n => ⟨"search", n, "Search saved: " ++ formatSearchSummary v⟩
  | .setStatus _ st n => ⟨"status", n, "Tool marked as " ++ statusLabel st⟩
  | .newFinding fd i n => ⟨"finding", n, "Finding added: " ++ (mkFinding fd i n).title⟩
  | .newNote _ _ n => ⟨"note", n, "Note added"⟩

/-- Whether this mutator call actually appends a timeline event to the case
`caseId`: the case must exist, `saveSearch` must see it as the active case,
and `setStatus` must carry a defined status. -/
def mutatorAppends (s : Store) (caseId : String) (m : MutatorCall) : Bool :=
  (getCase s caseId).isSome &&
  match m with
  | .saveSearch _ _ _ _ =>
    match getActiveCase s with
    | some a => a.id == caseId
    | none => false
  | .setStatus _ st _ => TOOL_STATUSES.contains st
  | .newFinding _ _ _ => true
  | .newNote _ _ _ => true

/-- Run a list of mutator calls in order. -/
def applyMutators (s : Store) (caseId : String) (ms : List MutatorCall) : Store :=
  ms.foldl (fun acc m => applyMutator acc caseId m) s

/-- Every call of the list appends a timeline event to `caseId` in the state
it actually runs in. -/
def chainAppends (s : Store) (caseId : String) : List MutatorCall → Bool
  | [] => true
  | m :: ms => mutatorAppends s caseId m && chainAppends (applyMutator s caseId m) caseId ms

/-- The last `n` elements of a list (all of it when it is shorter): the
common shape of both eviction loops and of the timeline trim. -/
def keepLast {α : Type} (n : Nat) (l : List α) : List α :=
  l.drop (l.length - n)

/-- Sample case data used by concrete instantiations. -/
def sampleCaseData : CaseData :=
  ⟨some "Test Case", none, none, none, none, none, none, none⟩

/-- A store holding one freshly created case with id "case-1". -/
def store1 : Store :=
  (createCase ⟨[], none, none⟩ sampleCaseData "case-1" 100).2

/-
  JSON model.  The browser builtins `JSON.stringify` / `JSON.parse` have no
  source in the repository; they are modelled over the value type `Json`
  below.  Numbers are restricted to integers because every number the case
  store ever serializes is an integer (timestamps, counts); the escape table
  covers the characters the model's renderer escapes.
-/

/-- A JSON value. -/
inductive Json where
  | null
  | bool (b : Bool)
  | num (n : Int)
  | str (s : String)
  | arr (elems : List Json)
  | obj (fields : List (String × Json))

/-- The opening brace character (written by code point to keep braces out of
character literals). -/
def braceOpen : Char := Char.ofNat 123

/-- The closing brace character. -/
def braceClose : Char := Char.ofNat 125

/-- One digit character. -/
def digitChar (d : Nat) : Char := Char.ofNat (48 + d)

/-- The numeric value of a digit character. -/
def digitVal (c : Char) : Nat := c.toNat - 48

/-- Decimal digits of a natural number, most significant first, with a fuel
bound on the loop (`n + 1` iterations always suffice). -/
def natDigitsGo : Nat → Nat → List Char → List Char
  | 0, _, acc => acc
  | fuel + 1, n, acc =>
    if n < 10 then digitChar n :: acc
    else natDigitsGo fuel (n / 10) (digitChar (n % 10) :: acc)

/-- Decimal rendering of a natural number. -/
def natToDigits (n : Nat) : List Char := natDigitsGo (n + 1) n []

/-- Decimal rendering of an integer (minus sign for negatives). -/
def intToChars (i : Int) : List Char :=
  if i < 0 then '-' :: natToDigits i.natAbs else natToDigits i.natAbs

/-- String-body escaping for the JSON renderer: quote, backslash and the
common control characters. -/
def escapeChar (c : Char) : List Char :=
  if c = '"' then ['\\', '"']
  else if c = '\\' then ['\\', '\\']
  else if c = '\n' then ['\\', 'n']
  else if c = '\t' then ['\\', 't']
  else if c = '\r' then ['\\', 'r']
  else [c]

/-- Escape a whole string body. -/
def escapeString (s : String) : List Char :=
  s.toList.flatMap escapeChar

/-- JSON insignificant whitespace. -/
def isWs (c : Char) : Bool := c == ' ' || c == '\n' || c == '\t' || c == '\r'

/-- Drop leading insignificant whitespace. -/
def skipWs : List Char → List Char
  | [] => []
  | c :: rest => if isWs c then skipWs rest else c :: rest

/-- The 2-space-per-level indentation of `JSON.stringify(v, null, 2)`. -/
def indentChars (depth : Nat) : List Char := List.replicate (2 * depth) ' '

mutual

/-- Pretty rendering of a JSON value as produced by
`JSON.stringify(v, null, 2)` at nesting depth `depth`. -/
def renderPretty (depth : Nat) : Json → List Char
  | .null => ['n', 'u', 'l', 'l']
  | .bool b => if b then ['t', 'r', 'u', 'e'] else ['f', 'a', 'l', 's', 'e']
  | .num i => intToChars i
  | .str s => '"' :: (escapeString s ++ ['"'])
  | .arr [] => ['[', ']']
  | .arr (x :: xs) =>
    '[' :: '\n' :: (indentChars (depth + 1) ++ renderPretty (depth + 1) x
      ++ renderArrTail (depth + 1) xs ++ '\n' :: (indentChars depth ++ [']']))
  | .obj [] => [braceOpen, braceClose]
  | .obj (kv :: kvs) =>
    braceOpen :: '\n' :: (indentChars (depth + 1) ++ renderField (depth + 1) kv
      ++ renderObjTail (depth + 1) kvs ++ '\n' :: (indentChars depth ++ [braceClose]))

/-- Pretty rendering of one `"key": value` member. -/
def renderField (depth : Nat) : String × Json → List Char
  | (k, v) => '"' :: (escapeString k ++ '"' :: ':' :: ' ' :: renderPretty depth v)

/-- Pretty rendering of the remaining array elements. -/
def renderArrTail (depth : Nat) : List Json → List Char
  | [] => []
  | x :: xs =>
    ',' :: '\n' :: (indentChars depth ++ renderPretty depth x ++ renderArrTail depth xs)

/-- Pretty rendering of the remaining object members. -/
def renderObjTail (depth : Nat) : List (String × Json) → List Char
  | [] => []
  | kv :: kvs =>
    ',' :: '\n' :: (indentChars depth ++ renderField depth kv ++ renderObjTail depth kvs)

end

/-- The string `JSON.stringify(v, null, 2)` produces (the JSON case-export
format). -/
def stringifyPretty (j : Json) : String := String.mk (renderPretty 0 j)

mutual

/-- Compact rendering as produced by plain `JSON.stringify(v)` (no
insignificant whitespace), used by the storage adapter. -/
def renderCompact : Json → List Char
  | .null => ['n', 'u', 'l', 'l']
  | .bool b => if b then ['t', 'r', 'u', 'e'] else ['f', 'a', 'l', 's', 'e']
  | .num i => intToChars i
  | .str s => '"' :: (escapeString s ++ ['"'])
  | .arr [] => ['[', ']']
  | .arr (x :: xs) => '[' :: (renderCompact x ++ renderCompactArrTail xs ++ [']'])
  | .obj [] => [braceOpen, braceClose]
  | .obj (kv :: kvs) =>
    braceOpen :: (renderCompactField kv ++ renderCompactObjTail kvs ++ [braceClose])

/-- Compact rendering of one `"key":value` member. -/
def renderCompactField : String × Json → List Char
  | (k, v) => '"' :: (escapeString k ++ '"' :: ':' :: renderCompact v)

/-- Compact rendering of the remaining array elements. -/
def renderCompactArrTail : List Json → List Char
  | [] => []
  | x :: xs => ',' :: (renderCompact x ++ renderCompactArrTail xs)

/-- Compact rendering of the remaining object members. -/
def renderCompactObjTail : List (String × Json) → List Char
  | [] => []
  | kv :: kvs => ',' :: (renderCompactField kv ++ renderCompactObjTail kvs)

end

/-- The string plain `JSON.stringify(v)` produces. -/
def stringifyCompact (j : Json) : String := String.mk (renderCompact j)

/-- Greedy digit-run consumption with a left fold into the accumulator. -/
def parseDigitsGo : List Char → Nat → Nat × List Char
  | [], acc => (acc, [])
  | c :: rest, acc =>
    if c.isDigit then parseDigitsGo rest (10 * acc + digitVal c) else (acc, c :: rest)

/-- String-body parsing after an opening quote: collects characters up to
the closing quote, decoding the renderer's escapes; fuel bounds the loop
(the input length always suffices). -/
def parseStringGo : Nat → List Char → List Char → Option (String × List Char)
  | 0, _, _ => none
  | _ + 1, [], _ => none
  | fuel + 1, c :: rest, acc =>
    if c = '"' then some (String.mk acc.reverse, rest)
    else if c = '\\' then
      match rest with
      | [] => none
      | e :: rest2 =>
        if e = '"' then parseStringGo fuel rest2 ('"' :: acc)
        else if e = '\\' then parseStringGo fuel rest2 ('\\' :: acc)
        else if e = 'n' then parseStringGo fuel rest2 ('\n' :: acc)
        else if e = 't' then parseStringGo fuel rest2 ('\t' :: acc)
        else if e = 'r' then parseStringGo fuel rest2 ('\r' :: acc)
        else none
    else parseStringGo fuel rest (c :: acc)

mutual

/-- Recursive-descent JSON value parser; fuel bounds the recursion (the
input length plus one always suffices). -/
def parseVal : Nat → List Char → Option (Json × List Char)
  | 0, _ => none
  | fuel + 1, s =>
    match skipWs s with
    | [] => none
    | c :: rest =>
      if c = 'n' then
        match rest with
        | 'u' :: 'l' :: 'l' :: r => some (.null, r)
        | _ => none
      else if c = 't' then
        match rest with
        | 'r' :: 'u' :: 'e' :: r => some (.bool true, r)
        | _ => none
      else if c = 'f' then
        match rest with
        | 'a' :: 'l' :: 's' :: 'e' :: r => some (.bool false, r)
        | _ => none
      else if c = '"' then
        match parseStringGo rest.length rest [] with
        | some (str, r) => some (.str str, r)
        | none => none
      else if c = '[' then
        match skipWs rest with
        | c2 :: r =>
          if c2 = ']' then some (.arr [], r)
          else parseElems fuel (c2 :: r) []
        | [] => none
      else if c = braceOpen then
        match skipWs rest with
        | c2 :: r =>
          if c2 = braceClose then some (.obj [], r)
          else parseFields fuel (c2 :: r) []
        | [] => none
      else if c = '-' then
        match rest with
        | d :: r =>
          if d.isDigit then
            let p := parseDigitsGo (d :: r) 0
            some (.num (-(p.1 : Int)), p.2)
          else none
        | [] => none
      else if c.isDigit then
        let p := parseDigitsGo (c :: rest) 0
        some (.num (p.1 : Int), p.2)
      else none

/-- Array-element list parser (called after the first element's start). -/
def parseElems : Nat → List Char → List Json → Option (Json × List Char)
  | 0, _, _ => none
  | fuel + 1, s, acc =>
    match parseVal fuel s with
    | none => none
    | some (j, r) =>
      match skipWs r with
      | c :: r2 =>
        if c = ',' then parseElems fuel r2 (j :: acc)
        else if c = ']' then some (.arr (j :: acc).reverse, r2)
        else none
      | [] => none

/-- Object-member list parser (called after the first member's start). -/
def parseFields : Nat → List Char → List (String × Json) → Option (Json × List Char)
  | 0, _, _ => none
  | fuel + 1, s, acc =>
    match skipWs s with
    | [] => none
    | c :: rest =>
      if c = '"' then
        match parseStringGo rest.length rest [] with
        | none => none
        | some (key, r) =>
          match skipWs r with
          | [] => none
          | c2 :: r2 =>
            if c2 = ':' then
              match parseVal fuel r2 with
              | none => none
              | some (j, r3) =>
                match skipWs r3 with
                | [] => none
                | c3 :: r4 =>
                  if c3 = ',' then parseFields fuel r4 ((key, j) :: acc)
                  else if c3 = braceClose then some (.obj ((key, j) :: acc).reverse, r4)
                  else none
            else none
      else none

end

/-- JSON.parse: parses one value and requires only whitespace after it;
a parse failure (the thrown SyntaxError) is the `none` result. -/
def parseJson (s : String) : Option Json :=
  match parseVal (s.length + 1) s.toList with
  | some (j, rest) => if skipWs rest = [] then some j else none
  | none => none

/-- Encode an optional string (`null` when absent). -/
def encodeOptStr : Option String → Json
  | none => .null
  | some s => .str s

/-- Encode an optional timestamp (`null` when absent). -/
def encodeOptNat : Option Nat → Json
  | none => .null
  | some t => .num (Int.ofNat t)

/-- Encode a natural number (timestamps, counts). -/
def encodeNat (n : Nat) : Json := .num (Int.ofNat n)

/-- Encode a list of strings. -/
def encodeStrList (l : List String) : Json := .arr (l.map Json.str)

/-- Encode a string-to-string map (object key order preserved). -/
def encodeStrPairs (l : List (String × String)) : Json :=
  .obj (l.map (fun kv => (kv.1, Json.str kv.2)))

/-- JSON shape of one stored link. -/
def encodeLink (l : LinkRef) : Json :=
  .obj [("id", .str l.id), ("name", .str l.name), ("url", .str l.url),
        ("badge", .str l.badge), ("category", .str l.category)]

/-- JSON shape of the captured search values (the seven identity fields). -/
def encodeSearchValues (v : SearchValues) : Json :=
  .obj [("first", .str v.first), ("last", .str v.last),
        ("username", .str v.username), ("email", .str v.email),
        ("domain", .str v.domain), ("phone", .str v.phone), ("ip", .str v.ip)]

/-- JSON shape of one search snapshot, key order as built by
`saveSearchToCase`. -/
def encodeSnapshot (s : SearchSnapshot) : Json :=
  .obj [("id", .str s.id), ("timestamp", encodeNat s.timestamp),
        ("values", encodeSearchValues s.values), ("toolCount", encodeNat s.toolCount),
        ("links", .arr (s.links.map encodeLink))]

/-- JSON shape of one finding, key order as built by `addFinding`. -/
def encodeFinding (f : Finding) : Json :=
  .obj [("id", .str f.id), ("timestamp", encodeNat f.timestamp),
        ("toolId", encodeOptStr f.toolId), ("toolName", .str f.toolName),
        ("toolUrl", .str f.toolUrl), ("category", .str f.category),
        ("title", .str f.title), ("content", .str f.content),
        ("importance", .str f.importance), ("tags", encodeStrList f.tags),
        ("attachments", encodeStrList f.attachments)]

/-- JSON shape of one note, key order as built by `addNote`. -/
def encodeNote (n : Note) : Json :=
  .obj [("id", .str n.id), ("timestamp", encodeNat n.timestamp),
        ("content", .str n.content)]

/-- JSON shape of one timeline event. -/
def encodeEvent (e : TimelineEvent) : Json :=
  .obj [("type", .str e.type), ("timestamp", encodeNat e.timestamp),
        ("description", .str e.description)]

/-- JSON shape of the metadata sub-object, key order as built by
`createCase`. -/
def encodeMeta (m : CaseMeta) : Json :=
  .obj [("subject", encodeStrPairs m.subject), ("assignee", .str m.assignee),
        ("dueDate", encodeOptNat m.dueDate)]

/-- JSON shape of a whole case: the value `JSON.stringify` walks when the
case object is exported, key order as built by `createCase` (spreads in
`updateCase` preserve the original key order). -/
def encodeCase (c : Case) : Json :=
  .obj [("id", .str c.id), ("name", .str c.name),
        ("description", .str c.description), ("tags", encodeStrList c.tags),
        ("status", .str c.status), ("priority", .str c.priority),
        ("createdAt", encodeNat c.createdAt), ("updatedAt", encodeNat c.updatedAt),
        ("searches", .arr (c.searches.map encodeSnapshot)),
        ("findings", .arr (c.findings.map encodeFinding)),
        ("toolStatuses", encodeStrPairs c.toolStatuses),
        ("notes", .arr (c.notes.map encodeNote)),
        ("timeline", .arr (c.timeline.map encodeEvent)),
        ("metadata", encodeMeta c.metadata)]

/-- Field lookup in a parsed JSON object. -/
def jGet : List (String × Json) → String → Option Json
  | [], _ => none
  | kv :: rest, k => if kv.1 = k then some kv.2 else jGet rest k

/-- Read a JSON string. -/
def asStr : Json → Option String
  | .str s => some s
  | _ => none

/-- Read a non-negative JSON integer as a timestamp/count. -/
def asNat : Json → Option Nat
  | .num i => if i < 0 then none else some i.toNat
  | _ => none

/-- Read a nullable JSON string. -/
def asOptStr : Json → Option (Option String)
  | .null => some none
  | .str s => some (some s)
  | _ => none

/-- Read a nullable non-negative JSON integer. -/
def asOptNat : Json → Option (Option Nat)
  | .null => some none
  | .num i => if i < 0 then none else some (some i.toNat)
  | _ => none

/-- Read a list of JSON strings. -/
def asStrList : Json → Option (List String)
  | .arr xs => decodeStrs xs
  | _ => none
where
  /-- Read every element as a string. -/
  decodeStrs : List Json → Option (List String)
    | [] => some []
    | x :: xs => do
      let s ← asStr x
      let rest ← decodeStrs xs
      pure (s :: rest)

/-- Read a string-valued JSON object as an ordered map. -/
def asStrPairs : Json → Option (List (String × String))
  | .obj kvs => decodePairs kvs
  | _ => none
where
  /-- Read every member value as a string. -/
  decodePairs : List (String × Json) → Option (List (String × String))
    | [] => some []
    | kv :: kvs => do
      let v ← asStr kv.2
      let rest ← decodePairs kvs
      pure ((kv.1, v) :: rest)

/-- Decode one stored link. -/
def decodeLink (j : Json) : Option LinkRef :=
  match j with
  | .obj kvs => do
    let id ← jGet kvs "id" >>= asStr
    let name ← jGet kvs "name" >>= asStr
    let url ← jGet kvs "url" >>= asStr
    let badge ← jGet kvs "badge" >>= asStr
    let category ← jGet kvs "category" >>= asStr
    pure ⟨id, name, url, badge, category⟩
  | _ => none

/-- Decode a list of links. -/
def decodeLinks : List Json → Option (List LinkRef)
  | [] => some []
  | x :: xs => do
    let l ← decodeLink x
    let rest ← decodeLinks xs
    pure (l :: rest)

/-- Decode the captured search values. -/
def decodeSearchValues (j : Json) : Option SearchValues :=
  match j with
  | .obj kvs => do
    let first ← jGet kvs "first" >>= asStr
    let last ← jGet kvs "last" >>= asStr
    let username ← jGet kvs "username" >>= asStr
    let email ← jGet kvs "email" >>= asStr
    let domain ← jGet kvs "domain" >>= asStr
    let phone ← jGet kvs "phone" >>= asStr
    let ip ← jGet kvs "ip" >>= asStr
    pure ⟨first, last, username, email, domain, phone, ip⟩
  | _ => none

/-- Decode one search snapshot. -/
def decodeSnapshot (j : Json) : Option SearchSnapshot :=
  match j with
  | .obj kvs => do
    let id ← jGet kvs "id" >>= asStr
    let timestamp ← jGet kvs "timestamp" >>= asNat
    let values ← jGet kvs "values" >>= decodeSearchValues
    let toolCount ← jGet kvs "toolCount" >>= asNat
    let links ← jGet kvs "links" >>= (fun v =>
      match v with
      | .arr xs => decodeLinks xs
      | _ => none)
    pure ⟨id, timestamp, values, toolCount, links⟩
  | _ => none

/-- Decode a list of search snapshots. -/
def decodeSnapshots : List Json → Option (List SearchSnapshot)
  | [] => some []
  | x :: xs => do
    let s ← decodeSnapshot x
    let rest ← decodeSnapshots xs
    pure (s :: rest)

/-- Decode one finding. -/
def decodeFinding (j : Json) : Option Finding :=
  match j with
  | .obj kvs => do
    let id ← jGet kvs "id" >>= asStr
    let timestamp ← jGet kvs "timestamp" >>= asNat
    let toolId ← jGet kvs "toolId" >>= asOptStr
    let toolName ← jGet kvs "toolName" >>= asStr
    let toolUrl ← jGet kvs "toolUrl" >>= asStr
    let category ← jGet kvs "category" >>= asStr
    let title ← jGet kvs "title" >>= asStr
    let content ← jGet kvs "content" >>= asStr
    let importance ← jGet kvs "importance" >>= asStr
    let tags ← jGet kvs "tags" >>= asStrList
    let attachments ← jGet kvs "attachments" >>= asStrList
    pure ⟨id, timestamp, toolId, toolName, toolUrl, category, title, content,
          importance, tags, attachments⟩
  | _ => none

/-- Decode a list of findings. -/
def decodeFindings : List Json → Option (List Finding)
  | [] => some []
  | x :: xs => do
    let f ← decodeFinding x
    let rest ← decodeFindings xs
    pure (f :: rest)

/-- Decode one note. -/
def decodeNote (j : Json) : Option Note :=
  match j with
  | .obj kvs => do
    let id ← jGet kvs "id" >>= asStr
    let timestamp ← jGet kvs "timestamp" >>= asNat
    let content ← jGet kvs "content" >>= asStr
    pure ⟨id, timestamp, content⟩
  | _ => none

/-- Decode a list of notes. -/
def decodeNotes : List Json → Option (List Note)
  | [] => some []
  | x :: xs => do
    let n ← decodeNote x
    let rest ← decodeNotes xs
    pure (n :: rest)

/-- Decode one timeline event. -/
def decodeEvent (j : Json) : Option TimelineEvent :=
  match j with
  | .obj kvs => do
    let type ← jGet kvs "type" >>= asStr
    let timestamp ← jGet kvs "timestamp" >>= asNat
    let description ← jGet kvs "description" >>= asStr
    pure ⟨type, timestamp, description⟩
  | _ => none

/-- Decode a list of timeline events. -/
def decodeEvents : List Json → Option (List TimelineEvent)
  | [] => some []
  | x :: xs => do
    let e ← decodeEvent x
    let rest ← decodeEvents xs
    pure (e :: rest)

/-- Decode the metadata sub-object. -/
def decodeMeta (j : Json) : Option CaseMeta :=
  match j with
  | .obj kvs => do
    let subject ← jGet kvs "subject" >>= asStrPairs
    let assignee ← jGet kvs "assignee" >>= asStr
    let dueDate ← jGet kvs "dueDate" >>= asOptNat
    pure ⟨subject, assignee, dueDate⟩
  | _ => none

/-- Decode a whole case from a parsed JSON value. -/
def decodeCase (j : Json) : Option Case :=
  match j with
  | .obj kvs => do
    let id ← jGet kvs "id" >>= asStr
    let name ← jGet kvs "name" >>= asStr
    let description ← jGet kvs "description" >>= asStr
    let tags ← jGet kvs "tags" >>= asStrList
    let status ← jGet kvs "status" >>= asStr
    let priority ← jGet kvs "priority" >>= asStr
    let createdAt ← jGet kvs "createdAt" >>= asNat
    let updatedAt ← jGet kvs "updatedAt" >>= asNat
    let searches ← jGet kvs "searches" >>= (fun v =>
      match v with
      | .arr xs => decodeSnapshots xs
      | _ => none)
    let findings ← jGet kvs "findings" >>= (fun v =>
      match v with
      | .arr xs => decodeFindings xs
      | _ => none)
    let toolStatuses ← jGet kvs "toolStatuses" >>= asStrPairs
    let notes ← jGet kvs "notes" >>= (fun v =>
      match v with
      | .arr xs => decodeNotes xs
      | _ => none)
    let timeline ← jGet kvs "timeline" >>= (fun v =>
      match v with
      | .arr xs => decodeEvents xs
      | _ => none)
    let metadata ← jGet kvs "metadata" >>= decodeMeta
    pure ⟨id, name, description, tags, status, priority, createdAt, updatedAt,
          searches, findings, toolStatuses, notes, timeline, metadata⟩
  | _ => none

/-- Modelled from the spec: the restore direction of the spec's round-trip
property ("deserialize(serializeJSON(case)) == case field-for-field"); no
case importer exists under src/, so deserialization is modelled per the
spec's words as JSON.parse followed by reading every data-model field back
from the parsed value. -/
def deserializeCase (content : String) : Option Case :=
  (parseJson content).bind decodeCase

/-
  Persistence adapter (js/storage.js).
-/

/-- KEYS.HISTORY in js/storage.js. -/
def KEY_HISTORY : String := "spectre-hist"

/-- The browser's localStorage together with the piece of SPECTRE_STORAGE
state the quota remediation touches: the raw key-to-blob map, the in-memory
history cache, and an oracle `writeOk` saying which writes the underlying
store accepts (`false` models a thrown QuotaExceededError). -/
structure StorageState where
  items : List (String × String)
  historyCache : Option Json
  writeOk : String → String → Bool

/-- localStorage.getItem (null when the key is absent). -/
def getItem (st : StorageState) (key : String) : Option String :=
  assocGet st.items key

/-- SPECTRE_STORAGE.get(key, defaultValue): reads the blob and parses it;
returns the default when the key is absent, when the blob is falsy (the
`item ?` check), or when JSON.parse throws (the catch branch).  Total: it
never propagates an error. -/
def storageGet (st : StorageState) (key : String) (defaultValue : Json) : Json :=
  match getItem st key with
  | none => defaultValue
  | some item =>
    if item = "" then defaultValue
    else
      match parseJson item with
      | some v => v
      | none => defaultValue

/-- getHistory(): the cache when set (arrays are truthy in the source's
check), otherwise the parsed blob with `[]` as the default. -/
def getHistory (st : StorageState) : Json :=
  match st.historyCache with
  | some h => h
  | none => storageGet st KEY_HISTORY (.arr [])

/-- The value a `.length > 10` test sees on the history: a non-array gives
`undefined > 10`, which is false, so it behaves as length 0. -/
def historyLength : Json → Nat
  | .arr xs => xs.length
  | _ => 0

/-- handleQuotaExceeded(): when the history is an array longer than 10,
caches its first half and re-persists it through `set`; that inner `set`
can itself fail and recurse into the remediation, which the fuel bounds
(each round at least halves a history longer than 10, so the initial
history length plus one always suffices). -/
def handleQuotaGo : Nat → StorageState → StorageState
  | fuel, st =>
    match getHistory st with
    | .arr xs =>
      if xs.length > 10 then
        let halved : Json := .arr (xs.take (xs.length / 2))
        let st2 := { st with historyCache := some halved }
        let blob := stringifyCompact halved
        if st2.writeOk KEY_HISTORY blob then
          { st2 with items := assocSet st2.items KEY_HISTORY blob }
        else
          match fuel with
          | 0 => st2
          | fuel2 + 1 => handleQuotaGo fuel2 st2
      else st
    | _ => st

/-- SPECTRE_STORAGE.set(key, value): serializes with JSON.stringify and
writes, returning true; when the underlying store rejects the write it
catches the error, runs the quota remediation, and returns false instead
of throwing. -/
def storageSet (st : StorageState) (key : String) (value : Json) :
    Bool × StorageState :=
  let blob := stringifyCompact value
  if st.writeOk key blob then
    (true, { st with items := assocSet st.items key blob })
  else
    (false, handleQuotaGo (historyLength (getHistory st) + 1) st)

/-
  Export pipeline: SPECTRE_UTILS.string.slugify / escapeHtml (js/utils.js),
  the report serializers and exportCase (js/case-manager.js).
-/

/-- The regex class `\w` (ASCII word characters). -/
def isWordChar (c : Char) : Bool := c.isAlphanum || c == '_'

/-- The regex class `\s` (common whitespace). -/
def isSpaceChar (c : Char) : Bool :=
  c == ' ' || c == '\t' || c == '\n' || c == '\r' || c == '\x0b' || c == '\x0c'

/-- The separator class `[\s_-]` collapsed by slugify. -/
def isSlugSep (c : Char) : Bool := isSpaceChar c || c == '_' || c == '-'

/-- The replacement `.replace(/[\s_-]+/g, '-')`: every maximal separator
run becomes one hyphen (the flag records a run in progress). -/
def collapseGo : Bool → List Char → List Char
  | _, [] => []
  | inRun, c :: rest =>
    if isSlugSep c then
      if inRun then collapseGo true rest else '-' :: collapseGo true rest
    else c :: collapseGo false rest

/-- SPECTRE_UTILS.string.slugify: lower-case, trim, strip non-word
characters, collapse separator runs to single hyphens, strip edge hyphens.
Character classes are modelled over ASCII. -/
def slugify (str : String) : String :=
  if str = "" then ""
  else
    let cs := str.toList.map Char.toLower
    let cs := ((cs.dropWhile isSpaceChar).reverse.dropWhile isSpaceChar).reverse
    let cs := cs.filter (fun c => isWordChar c || isSpaceChar c || c == '-')
    let cs := collapseGo false cs
    let cs := ((cs.dropWhile (fun c => c == '-')).reverse.dropWhile (fun c => c == '-')).reverse
    String.mk cs

/-- The export timestamp
`new Date().toISOString().replace(/[:.]/g, '-').slice(0, 19)`, applied to
the clock oracle's ISO rendering. -/
def isoTimestamp (isoNow : String) : String :=
  String.mk ((isoNow.toList.map (fun c => if c = ':' ∨ c = '.' then '-' else c)).take 19)

/-- Modelled from the spec: report timestamps "render via locale-aware
date/time formatting at render time" (`new Date(t).toLocaleString()`), a
host-environment function with no source in the repository, modelled as an
injective rendering of the epoch-millisecond value. -/
def localeString (t : Nat) : String := "[time " ++ Nat.repr t ++ "]"

/-- SPECTRE_UTILS.string.escapeHtml: the DOM textContent/innerHTML round
trip, which escapes the markup-significant characters. -/
def escapeHtml (s : String) : String :=
  if s = "" then ""
  else String.mk (s.toList.flatMap (fun c =>
    if c = '&' then ['&', 'a', 'm', 'p', ';']
    else if c = '<' then ['&', 'l', 't', ';']
    else if c = '>' then ['&', 'g', 't', ';']
    else [c]))

/-- `importance.charAt(0).toUpperCase() + importance.slice(1)`. -/
def capitalizeFirst (s : String) : String :=
  match s.toList with
  | [] => ""
  | c :: rest => String.mk (c.toUpper :: rest)

/-- The grouping `byImportance[f.importance]?.push(f) || medium.push(f)`:
a finding with an importance outside the four defined levels lands in the
medium bucket. -/
def importanceBucket (imp : String) : String :=
  if imp = "critical" ∨ imp = "high" ∨ imp = "medium" ∨ imp = "low" then imp
  else "medium"

/-- One counting step of the `statusCounts` accumulation (existing keys
keep their position, new keys are appended — JS object key order). -/
def bumpCount : List (String × Nat) → String → List (String × Nat)
  | [], st => [(st, 1)]
  | (k, n) :: rest, st =>
    if k = st then (k, n + 1) :: rest else (k, n) :: bumpCount rest st

/-- The `statusCounts` object: occurrences of each tool status, in first
appearance order. -/
def statusCounts (vals : List String) : List (String × Nat) :=
  vals.foldl bumpCount []

/-- caseToMarkdown: the sectioned Markdown report.  For a tool status
outside STATUS_CONFIG the source would throw reading `.icon` of undefined;
the model renders empty icon/label instead (no validated execution reaches
that path, and no claim examines it). -/
def caseToMarkdown (caseObj : Case) : String :=
  let header :=
    "# Investigation: " ++ caseObj.name ++ "\n\n"
    ++ "**Status:** " ++ caseObj.status ++ " | **Priority:** " ++ caseObj.priority ++ "\n"
    ++ "**Created:** " ++ localeString caseObj.createdAt ++ "\n"
    ++ "**Last Updated:** " ++ localeString caseObj.updatedAt ++ "\n\n"
  let descr :=
    if caseObj.description ≠ "" then
      "## Description\n\n" ++ caseObj.description ++ "\n\n"
    else ""
  let tagsMd :=
    if caseObj.tags.length > 0 then
      "**Tags:** " ++ String.intercalate ", " caseObj.tags ++ "\n\n"
    else ""
  let subjectMd :=
    if caseObj.metadata.subject.length > 0 then
      "## Subject Information\n\n"
      ++ String.join (caseObj.metadata.subject.map (fun kv =>
          if kv.2 ≠ "" then "- **" ++ kv.1 ++ ":** " ++ kv.2 ++ "\n" else ""))
      ++ "\n"
    else ""
  let findingMd := fun (f : Finding) =>
    "#### " ++ f.title ++ "\n"
    ++ "*" ++ localeString f.timestamp ++ "*"
    ++ (if f.toolName ≠ "" then " | Tool: " ++ f.toolName else "")
    ++ "\n\n"
    ++ f.content ++ "\n\n"
    ++ (if f.toolUrl ≠ "" then "🔗 [Open Tool](" ++ f.toolUrl ++ ")\n\n" else "")
  let groupMd := fun (level : String) =>
    let group := caseObj.findings.filter (fun f => importanceBucket f.importance = level)
    if group.length > 0 then
      "### " ++ capitalizeFirst level ++ " Priority\n\n" ++ String.join (group.map findingMd)
    else ""
  let findingsMd :=
    if caseObj.findings.length > 0 then
      "## Findings (" ++ Nat.repr caseObj.findings.length ++ ")\n\n"
      ++ String.join (["critical", "high", "medium", "low"].map groupMd)
    else ""
  let searchesMd :=
    if caseObj.searches.length > 0 then
      "## Search History (" ++ Nat.repr caseObj.searches.length ++ ")\n\n"
      ++ String.join (caseObj.searches.enum.map (fun si =>
          "### Search " ++ Nat.repr (si.1 + 1) ++ " - " ++ localeString si.2.timestamp ++ "\n"
          ++ "**Parameters:** " ++ formatSearchSummary si.2.values ++ "\n"
          ++ "**Tools Generated:** " ++ Nat.repr si.2.toolCount ++ "\n\n"))
    else ""
  let notesMd :=
    if caseObj.notes.length > 0 then
      "## Notes\n\n"
      ++ String.join (caseObj.notes.map (fun n =>
          "**" ++ localeString n.timestamp ++ "**\n" ++ n.content ++ "\n\n---\n\n"))
    else ""
  let counts := statusCounts (caseObj.toolStatuses.map Prod.snd)
  let statusMd :=
    if counts.length > 0 then
      "## Tool Status Summary\n\n"
      ++ String.join (counts.map (fun sc =>
          "- " ++ statusIcon sc.1 ++ " " ++ statusLabel sc.1 ++ ": " ++ Nat.repr sc.2 ++ "\n"))
      ++ "\n"
    else ""
  header ++ descr ++ tagsMd ++ subjectMd ++ findingsMd ++ searchesMd ++ notesMd
    ++ statusMd ++ "---\n\n*Exported from SPECTRE OSINT Platform*\n"

/-- The static `<style>` block of the HTML report (braces written with the
\x7b/\x7d code points; text otherwise as in the source). -/
def htmlStyle : String :=
  "    <style>\n"
  ++ "        :root \x7b\n"
  ++ "            --bg: #0d0e10;\n            --bg-card: #1a1c1f;\n"
  ++ "            --border: #32363a;\n            --text: #f0f2f4;\n"
  ++ "            --text-muted: #9ca3af;\n            --accent: #3b82f6;\n"
  ++ "            --green: #10b981;\n            --amber: #f59e0b;\n"
  ++ "            --red: #ef4444;\n            --purple: #8b5cf6;\n        \x7d\n"
  ++ "        * \x7b margin: 0; padding: 0; box-sizing: border-box; \x7d\n"
  ++ "        body \x7b\n            font-family: \x27Segoe UI\x27, system-ui, sans-serif;\n"
  ++ "            background: var(--bg);\n            color: var(--text);\n"
  ++ "            line-height: 1.6;\n            padding: 2rem;\n        \x7d\n"
  ++ "        .container \x7b max-width: 1000px; margin: 0 auto; \x7d\n"
  ++ "        header \x7b\n            padding: 2rem;\n"
  ++ "            background: linear-gradient(135deg, rgba(59,130,246,0.1), rgba(139,92,246,0.1));\n"
  ++ "            border-radius: 12px;\n            border: 1px solid var(--border);\n"
  ++ "            margin-bottom: 2rem;\n        \x7d\n"
  ++ "        h1 \x7b\n            font-size: 1.75rem;\n"
  ++ "            background: linear-gradient(135deg, #3b82f6, #8b5cf6);\n"
  ++ "            -webkit-background-clip: text;\n"
  ++ "            -webkit-text-fill-color: transparent;\n"
  ++ "            margin-bottom: 0.5rem;\n        \x7d\n"
  ++ "        .meta \x7b color: var(--text-muted); font-size: 0.875rem; \x7d\n"
  ++ "        .badge \x7b\n            display: inline-block;\n"
  ++ "            padding: 0.25rem 0.75rem;\n            border-radius: 4px;\n"
  ++ "            font-size: 0.75rem;\n            font-weight: 600;\n"
  ++ "            text-transform: uppercase;\n            margin-right: 0.5rem;\n        \x7d\n"
  ++ "        .badge-active \x7b background: rgba(16,185,129,0.15); color: var(--green); \x7d\n"
  ++ "        .badge-closed \x7b background: rgba(107,114,128,0.15); color: var(--text-muted); \x7d\n"
  ++ "        .badge-high \x7b background: rgba(239,68,68,0.15); color: var(--red); \x7d\n"
  ++ "        .badge-medium \x7b background: rgba(245,158,11,0.15); color: var(--amber); \x7d\n"
  ++ "        .badge-low \x7b background: rgba(59,130,246,0.15); color: var(--accent); \x7d\n"
  ++ "        .badge-critical \x7b background: rgba(239,68,68,0.3); color: #ff6b6b; \x7d\n"
  ++ "        section \x7b\n            background: var(--bg-card);\n"
  ++ "            border: 1px solid var(--border);\n            border-radius: 12px;\n"
  ++ "            padding: 1.5rem;\n            margin-bottom: 1.5rem;\n        \x7d\n"
  ++ "        h2 \x7b\n            font-size: 1.1rem;\n            margin-bottom: 1rem;\n"
  ++ "            padding-bottom: 0.5rem;\n            border-bottom: 1px solid var(--border);\n        \x7d\n"
  ++ "        .finding \x7b\n            padding: 1rem;\n            background: rgba(0,0,0,0.2);\n"
  ++ "            border-radius: 8px;\n            margin-bottom: 1rem;\n        \x7d\n"
  ++ "        .finding h3 \x7b font-size: 1rem; margin-bottom: 0.5rem; \x7d\n"
  ++ "        .finding .meta \x7b margin-bottom: 0.75rem; \x7d\n"
  ++ "        .finding p \x7b color: var(--text-secondary); \x7d\n"
  ++ "        .stats \x7b\n            display: grid;\n"
  ++ "            grid-template-columns: repeat(auto-fit, minmax(150px, 1fr));\n"
  ++ "            gap: 1rem;\n        \x7d\n"
  ++ "        .stat \x7b\n            background: rgba(0,0,0,0.2);\n"
  ++ "            padding: 1rem;\n            border-radius: 8px;\n"
  ++ "            text-align: center;\n        \x7d\n"
  ++ "        .stat-value \x7b font-size: 1.5rem; font-weight: 600; \x7d\n"
  ++ "        .stat-label \x7b font-size: 0.75rem; color: var(--text-muted); \x7d\n"
  ++ "        footer \x7b\n            text-align: center;\n            padding: 2rem;\n"
  ++ "            color: var(--text-muted);\n            font-size: 0.8rem;\n        \x7d\n"
  ++ "        a \x7b color: var(--accent); text-decoration: none; \x7d\n"
  ++ "        a:hover \x7b text-decoration: underline; \x7d\n"
  ++ "    </style>\n"

/-- caseToHTML: the standalone styled HTML report (text and structure as in
the source template; the inter-tag indentation of the template literal is
condensed to single newlines).  `genNow` is the `new Date()` the footer
formats. -/
def caseToHTML (caseObj : Case) (genNow : Nat) : String :=
  let counts := statusCounts (caseObj.toolStatuses.map Prod.snd)
  let usefulCount := ((assocGet (counts.map (fun sc => (sc.1, Nat.repr sc.2))) "useful").getD "0")
  let findingHtml := fun (f : Finding) =>
    "<div class=\"finding\">\n<h3>" ++ escapeHtml f.title ++ "</h3>\n"
    ++ "<p class=\"meta\">\n<span class=\"badge badge-" ++ f.importance ++ "\">"
    ++ f.importance ++ "</span>\n"
    ++ (if f.toolName ≠ "" then "Tool: " ++ escapeHtml f.toolName else "") ++ " |\n"
    ++ localeString f.timestamp ++ "\n</p>\n"
    ++ "<p>" ++ escapeHtml f.content ++ "</p>\n"
    ++ (if f.toolUrl ≠ "" then
        "<p style=\"margin-top: 0.5rem;\"><a href=\"" ++ escapeHtml f.toolUrl
        ++ "\" target=\"_blank\">Open Tool →</a></p>\n"
      else "")
    ++ "</div>\n"
  let noteHtml := fun (n : Note) =>
    "<div class=\"finding\">\n<p class=\"meta\">" ++ localeString n.timestamp ++ "</p>\n"
    ++ "<p>" ++ escapeHtml n.content ++ "</p>\n</div>\n"
  "<!DOCTYPE html>\n<html lang=\"en\">\n<head>\n"
  ++ "    <meta charset=\"UTF-8\">\n"
  ++ "    <meta name=\"viewport\" content=\"width=device-width, initial-scale=1.0\">\n"
  ++ "    <title>Investigation: " ++ escapeHtml caseObj.name ++ "</title>\n"
  ++ htmlStyle
  ++ "</head>\n<body>\n<div class=\"container\">\n<header>\n"
  ++ "<h1>📁 " ++ escapeHtml caseObj.name ++ "</h1>\n"
  ++ "<p class=\"meta\">\n"
  ++ "<span class=\"badge badge-" ++ caseObj.status ++ "\">" ++ caseObj.status ++ "</span>\n"
  ++ "<span class=\"badge badge-" ++ caseObj.priority ++ "\">" ++ caseObj.priority
  ++ " priority</span>\n</p>\n"
  ++ "<p class=\"meta\" style=\"margin-top: 0.5rem;\">\nCreated: "
  ++ localeString caseObj.createdAt ++ " | \nUpdated: " ++ localeString caseObj.updatedAt
  ++ "\n</p>\n"
  ++ (if caseObj.description ≠ "" then
      "<p style=\"margin-top: 1rem; color: var(--text-secondary);\">"
      ++ escapeHtml caseObj.description ++ "</p>\n"
    else "")
  ++ "</header>\n<section>\n<h2>📊 Summary</h2>\n<div class=\"stats\">\n"
  ++ "<div class=\"stat\">\n<div class=\"stat-value\">" ++ Nat.repr caseObj.searches.length
  ++ "</div>\n<div class=\"stat-label\">Searches</div>\n</div>\n"
  ++ "<div class=\"stat\">\n<div class=\"stat-value\">" ++ Nat.repr caseObj.findings.length
  ++ "</div>\n<div class=\"stat-label\">Findings</div>\n</div>\n"
  ++ "<div class=\"stat\">\n<div class=\"stat-value\">" ++ Nat.repr caseObj.toolStatuses.length
  ++ "</div>\n<div class=\"stat-label\">Tools Reviewed</div>\n</div>\n"
  ++ "<div class=\"stat\">\n<div class=\"stat-value\">" ++ usefulCount
  ++ "</div>\n<div class=\"stat-label\">Useful Tools</div>\n</div>\n"
  ++ "</div>\n</section>\n"
  ++ (if caseObj.findings.length > 0 then
      "<section>\n<h2>🔍 Key Findings</h2>\n"
      ++ String.join (caseObj.findings.map findingHtml) ++ "</section>\n"
    else "")
  ++ (if caseObj.notes.length > 0 then
      "<section>\n<h2>📝 Notes</h2>\n"
      ++ String.join (caseObj.notes.map noteHtml) ++ "</section>\n"
    else "")
  ++ "<footer>\n<p>Generated by <a href=\"#\">SPECTRE OSINT Platform</a> on "
  ++ localeString genNow ++ "</p>\n</footer>\n</div>\n</body>\n</html>"

/-- The `{content, filename, mimeType}` record exportCase returns. -/
structure ExportData where
  content : String
  filename : String
  mimeType : String
deriving Repr

/-- exportCase(caseId, format): null for a missing case; otherwise computes
the timestamp slug and the slugified name, then dispatches on the format
(the switch default gives null).  `isoNow` and `now` are the same clock
reading as its ISO string and as epoch milliseconds. -/
def exportCase (s : Store) (caseId format : String) (isoNow : String) (now : Nat) :
    Option ExportData :=
  match getCase s caseId with
  | none => none
  | some caseObj =>
    let timestamp := isoTimestamp isoNow
    let safeName := slugify caseObj.name
    if format = "json" then
      some ⟨stringifyPretty (encodeCase caseObj),
            "spectre-case-" ++ safeName ++ "-" ++ timestamp ++ ".json",
            "application/json"⟩
    else if format = "markdown" then
      some ⟨caseToMarkdown caseObj,
            "spectre-case-" ++ safeName ++ "-" ++ timestamp ++ ".md",
            "text/markdown"⟩
    else if format = "html" then
      some ⟨caseToHTML caseObj now,
            "spectre-case-" ++ safeName ++ "-" ++ timestamp ++ ".html",
            "text/html"⟩
    else none

/-- The filename family the claim's words describe: slugified name plus an
ISO-derived timestamp truncated to the minute (the first 16 sanitized
characters, `YYYY-MM-DDTHH-MM`); written from the spec's words for
comparison with the source's filename. -/
def specMinuteFilename (name isoNow ext : String) : String :=
  "spectre-case-" ++ slugify name ++ "-"
    ++ String.mk ((isoNow.toList.map (fun c => if c = ':' ∨ c = '.' then '-' else c)).take 16)
    ++ ext

/-- The extension exportCase uses for each supported format. -/
def formatExt (format : String) : String :=
  if format = "json" then ".json"
  else if format = "markdown" then ".md"
  else ".html"

/-- The mime type exportCase uses for each supported format. -/
def formatMime (format : String) : String :=
  if format = "json" then "application/json"
  else if format = "markdown" then "text/markdown"
  else "text/html"

/-
  Concrete sample data for the closed instantiations below.
-/

/-- Sample finding data. -/
def sampleFindingData : FindingData :=
  ⟨none, some "Tool1", none, none, some "Leaked email", some "Found on breach site",
   some "high", none, none⟩

/-- 501 finding-insertion inputs (one more than the cap). -/
def manyFindingInputs : List (FindingData × String × Nat) :=
  (List.range (MAX_FINDINGS_PER_CASE + 1)).map
    (fun i => (sampleFindingData, "finding-" ++ Nat.repr i, 200 + i))

/-- 250 note-adding mutator calls against one case. -/
def manyNoteCalls : List MutatorCall :=
  (List.range 250).map (fun i => .newNote "n" ("note-" ++ Nat.repr i) (300 + i))

/-- Case data for the i-th filler case of the cap scenario. -/
def fillerCaseData (i : Nat) : CaseData :=
  ⟨some ("Case " ++ Nat.repr i), none, none, none, none, none, none, none⟩

/-- Fifty creations that follow the first case in the cap scenario. -/
def fillerCreations : List (CaseData × String × Nat) :=
  (List.range MAX_CASES).map (fun i => (fillerCaseData (i + 2), "case-" ++ Nat.repr (i + 2), i + 2))

/-- The store after creating "case-1", making it active, and creating fifty
more cases (the cap-overflow scenario). -/
def capScenario : Store :=
  createAll (setActiveCase (createCase ⟨[], none, none⟩ sampleCaseData "case-1" 1).2
    (some "case-1")) fillerCreations

/-- store1 with its single case set active. -/
def store1Active : Store := setActiveCase store1 (some "case-1")

/-- A partial update that carries id and createdAt keys. -/
def clobberingUpdates : CaseUpdates :=
  { noUpdates with id := some "hijacked", createdAt := some 999 }

/-- A partial update that renames the case (no id/createdAt keys). -/
def renamingUpdates : CaseUpdates := { noUpdates with name := some "Renamed" }

/-- A localStorage model with no keys that accepts every write. -/
def emptyAcceptingStorage : StorageState := ⟨[], none, fun _ _ => true⟩

/-- A localStorage model holding an unparseable blob under "bad". -/
def corruptStorage : StorageState := ⟨[("bad", "not json")], none, fun _ _ => true⟩

/-- A localStorage model that rejects every write (quota exhausted). -/
def rejectingStorage : StorageState := ⟨[], none, fun _ _ => false⟩

/-- A sample ISO clock reading with sub-minute precision. -/
def sampleIso : String := "2026-10-11T12:34:56.789Z"

/-
  Proof-side specifications used by the JSON round-trip development.
-/

/-- Recursive specification of decimal digits (most significant first),
equal to the fuelled `natToDigits`. -/
def natDigitsSpec (n : Nat) : List Char :=
  if h : n < 10 then [digitChar n]
  else natDigitsSpec (n / 10) ++ [digitChar (n % 10)]
termination_by n
decreasing_by exact Nat.div_lt_self (by omega) (by omega)

/-- The list does not begin with a digit (how a rendered number is
delimited from what follows it). -/
def noDigitHead : List Char → Prop
  | [] => True
  | c :: _ => c.isDigit = false

/-- Guard on what may follow a rendered value: only numbers constrain it. -/
def numGuard : Json → List Char → Prop
  | .num _, rest => noDigitHead rest
  | _, _ => True

mutual

/-- Structural node count of a JSON value (independent of the sizes of
embedded strings and integers); a fuel bound for the parser. -/
def jsonWeight : Json → Nat
  | .null => 1
  | .bool _ => 1
  | .num _ => 1
  | .str _ => 1
  | .arr xs => 1 + jsonListWeight xs
  | .obj kvs => 1 + jsonFieldsWeight kvs

/-- Node count of an array's elements. -/
def jsonListWeight : List Json → Nat
  | [] => 1
  | x :: xs => 1 + jsonWeight x + jsonListWeight xs

/-- Node count of an object's members. -/
def jsonFieldsWeight : List (String × Json) → Nat
  | [] => 1
  | kv :: kvs => 1 + jsonWeight kv.2 + jsonFieldsWeight kvs

end

/-
  Basic lemmas about the list embeddings.
-/

theorem findCase_some_id {cs : List Case} {cid : String} {c : Case}
    (h : findCase cs cid = some c) : c.id = cid := by
  induction cs with
  | nil => simp [findCase] at h
  | cons x rest ih =>
    by_cases hx : x.id = cid
    · rw [findCase, if_pos hx] at h
      injection h with h2
      rw [← h2]; exact hx
    · rw [findCase, if_neg hx] at h
      exact ih h

theorem findCase_eq_none {cs : List Case} {cid : String}
    (h : ∀ c ∈ cs, c.id ≠ cid) : findCase cs cid = none := by
  induction cs with
  | nil => rfl
  | cons x rest ih =>
    rw [findCase, if_neg (h x (by simp))]
    exact ih (fun c hc => h c (by simp [hc]))

theorem updateFirst_fst (cs : List Case) (cid : String) (f : Case → Case) :
    (updateFirst cs cid f).1 = (findCase cs cid).map f := by
  induction cs with
  | nil => rfl
  | cons x rest ih =>
    by_cases hx : x.id = cid <;> simp [updateFirst, findCase, hx, ih]

theorem updateFirst_not_found {cs : List Case} {cid : String} (f : Case → Case)
    (h : findCase cs cid = none) : updateFirst cs cid f = (none, cs) := by
  induction cs with
  | nil => rfl
  | cons x rest ih =>
    by_cases hx : x.id = cid
    · rw [findCase, if_pos hx] at h; cases h
    · rw [findCase, if_neg hx] at h
      simp [updateFirst, hx, ih h]

theorem findCase_updateFirst_self (cs : List Case) (cid : String) (f : Case → Case)
    (hf : ∀ x, (f x).id = x.id) :
    findCase (updateFirst cs cid f).2 cid = (findCase cs cid).map f := by
  induction cs with
  | nil => rfl
  | cons x rest ih =>
    by_cases hx : x.id = cid
    · simp [updateFirst, findCase, hx, hf x]
    · simp [updateFirst, findCase, hx, ih]

theorem map_updateFirst {β : Type} (g : Case → β) {f : Case → Case}
    (cs : List Case) (cid : String) (hf : ∀ x, g (f x) = g x) :
    (updateFirst cs cid f).2.map g = cs.map g := by
  induction cs with
  | nil => rfl
  | cons x rest ih =>
    by_cases hx : x.id = cid <;> simp [updateFirst, hx, hf, ih]

theorem removeFirst_not_found {cs : List Case} {cid : String}
    (h : findCase cs cid = none) : removeFirst cs cid = (false, cs) := by
  induction cs with
  | nil => rfl
  | cons x rest ih =>
    by_cases hx : x.id = cid
    · rw [findCase, if_pos hx] at h; cases h
    · rw [findCase, if_neg hx] at h
      simp [removeFirst, hx, ih h]

theorem findCase_removeFirst_nodup {cs : List Case} {cid : String}
    (h : (cs.map Case.id).Nodup) : findCase (removeFirst cs cid).2 cid = none := by
  induction cs with
  | nil => rfl
  | cons x rest ih =>
    simp only [List.map_cons, List.nodup_cons] at h
    by_cases hx : x.id = cid
    · simp only [removeFirst, if_pos hx]
      exact findCase_eq_none (fun c hc hcid => h.1 (by
        have hxc : x.id = c.id := by rw [hx, hcid]
        rw [hxc]
        exact List.mem_map_of_mem Case.id hc))
    · simp only [removeFirst, if_neg hx]
      rw [findCase, if_neg hx]
      exact ih h.2

theorem assocGet_assocSet (m : List (String × String)) (k v : String) :
    assocGet (assocSet m k v) k = some v := by
  induction m with
  | nil => simp [assocGet, assocSet]
  | cons kv rest ih =>
    by_cases hk : kv.1 = k
    · simp [assocSet, hk, assocGet]
    · cases kv with
      | mk k2 v2 =>
        simp only at hk
        simp [assocSet, hk, assocGet, ih]

/-
  Lemmas about the bounded-collection shapes.
-/

theorem keepLast_of_le {α : Type} {n : Nat} {l : List α} (h : l.length ≤ n) :
    keepLast n l = l := by
  simp [keepLast, Nat.sub_eq_zero_of_le h]

theorem length_keepLast {α : Type} (n : Nat) (l : List α) :
    (keepLast n l).length = min n l.length := by
  simp only [keepLast, List.length_drop]
  rcases Nat.le_total n l.length with h | h
  · rw [Nat.min_eq_left h]; omega
  · rw [Nat.min_eq_right h]; omega

theorem keepLast_eq_reverse_take {α : Type} (n : Nat) (l : List α) :
    keepLast n l = (List.take n l.reverse).reverse := by
  rw [List.take_reverse, List.reverse_reverse, keepLast]

theorem take_append_take {α : Type} (n : Nat) (a b : List α) :
    List.take n (a ++ List.take n b) = List.take n (a ++ b) := by
  rw [List.take_append_eq_append_take, List.take_append_eq_append_take,
      List.take_take]
  have harith : (n - a.length) ⊓ n = n - a.length := by omega
  rw [harith]

theorem keepLast_keepLast_append {α : Type} (n : Nat) (l l2 : List α) :
    keepLast n (keepLast n l ++ l2) = keepLast n (l ++ l2) := by
  rw [keepLast_eq_reverse_take, keepLast_eq_reverse_take n l,
      List.reverse_append, List.reverse_reverse, take_append_take,
      ← List.reverse_append, ← keepLast_eq_reverse_take]

theorem trimTimeline_eq_keepLast (t : List TimelineEvent) :
    trimTimeline t = keepLast 200 t := by
  unfold trimTimeline keepLast
  by_cases h : t.length > 200
  · rw [if_pos h]
  · rw [if_neg h]
    have : t.length - 200 = 0 := by omega
    rw [this, List.drop_zero]

theorem shiftGo_eq_keepLast (fuel : Nat) (fs : List Finding)
    (h : fs.length - MAX_FINDINGS_PER_CASE ≤ fuel) :
    shiftGo fuel fs = keepLast MAX_FINDINGS_PER_CASE fs := by
  induction fuel generalizing fs with
  | zero =>
    rw [shiftGo, keepLast]
    have : fs.length - MAX_FINDINGS_PER_CASE = 0 := by omega
    rw [this, List.drop_zero]
  | succ fuel ih =>
    rw [shiftGo]
    by_cases hlen : fs.length > MAX_FINDINGS_PER_CASE
    · rw [if_pos hlen, ih fs.tail (by simp [List.length_tail]; omega)]
      unfold keepLast
      rw [← List.drop_one, List.length_drop, List.drop_drop]
      have harith : 1 + (fs.length - 1 - MAX_FINDINGS_PER_CASE)
          = fs.length - MAX_FINDINGS_PER_CASE := by omega
      rw [harith]
    · rw [if_neg hlen, keepLast]
      have : fs.length - MAX_FINDINGS_PER_CASE = 0 := by omega
      rw [this, List.drop_zero]

theorem popGo_eq_take (fuel : Nat) (cs : List Case)
    (h : cs.length - MAX_CASES ≤ fuel) :
    popGo fuel cs = cs.take MAX_CASES := by
  induction fuel generalizing cs with
  | zero =>
    rw [popGo]
    have : MAX_CASES ≥ cs.length := by omega
    rw [List.take_of_length_le this]
  | succ fuel ih =>
    rw [popGo]
    by_cases hlen : cs.length > MAX_CASES
    · rw [if_pos hlen, ih cs.dropLast (by simp [List.length_dropLast]; omega),
          List.dropLast_eq_take, List.take_take]
      congr 1
      omega
    · rw [if_neg hlen, List.take_of_length_le (by omega)]

theorem popWhileOver_eq_take (cs : List Case) :
    popWhileOver cs = cs.take MAX_CASES := by
  exact popGo_eq_take cs.length cs (by omega)

theorem shiftWhileOver_eq_keepLast (fs : List Finding) :
    shiftWhileOver fs = keepLast MAX_FINDINGS_PER_CASE fs := by
  exact shiftGo_eq_keepLast fs.length fs (by omega)

/-
  Effect of each operation on the case it targets.
-/

theorem getCase_updateCase (s : Store) (cid : String) (u : CaseUpdates) (now : Nat)
    (hu : u.id = none) :
    getCase (updateCase s cid u now).2 cid
      = (getCase s cid).map (fun c => applyUpdates c u now) := by
  have hf : ∀ x : Case, (applyUpdates x u now).id = x.id := by
    intro x; simp [applyUpdates, hu]
  cases h : findCase s.cases cid with
  | none =>
    have h1 := updateFirst_not_found (fun c => applyUpdates c u now) h
    simp [updateCase, h1, getCase, h]
  | some c =>
    have h1 := updateFirst_fst s.cases cid (fun c => applyUpdates c u now)
    have h2 := findCase_updateFirst_self s.cases cid (fun c => applyUpdates c u now) hf
    rw [h] at h1 h2
    simp [updateCase, getCase, h1, h2, h]

theorem getCase_addTimelineEvent (s : Store) (cid ty d : String) (now : Nat) :
    getCase (addTimelineEvent s cid ty d now) cid
      = (getCase s cid).map (fun c =>
          { c with timeline := trimTimeline (c.timeline ++ [⟨ty, now, d⟩]) }) := by
  simp only [addTimelineEvent, getCase]
  exact findCase_updateFirst_self s.cases cid _ (fun x => rfl)

theorem getCase_set_findings (s : Store) (cid : String) (nf : List Finding) :
    getCase { s with cases := (updateFirst s.cases cid
        (fun x => { x with findings := nf })).2 } cid
      = (getCase s cid).map (fun x => { x with findings := nf }) :=
  findCase_updateFirst_self s.cases cid _ (fun x => rfl)

theorem getCase_set_notes (s : Store) (cid : String) (nn : List Note) :
    getCase { s with cases := (updateFirst s.cases cid
        (fun x => { x with notes := nn })).2 } cid
      = (getCase s cid).map (fun x => { x with notes := nn }) :=
  findCase_updateFirst_self s.cases cid _ (fun x => rfl)

theorem getCase_set_toolStatuses (s : Store) (cid : String)
    (ts : List (String × String)) :
    getCase { s with cases := (updateFirst s.cases cid
        (fun x => { x with toolStatuses := ts })).2 } cid
      = (getCase s cid).map (fun x => { x with toolStatuses := ts }) :=
  findCase_updateFirst_self s.cases cid _ (fun x => rfl)

theorem addFinding_effect (s : Store) (cid : String) (fd : FindingData)
    (i : String) (n : Nat) (c : Case) (hc : getCase s cid = some c) :
    (addFinding s cid fd i n).1 = some (mkFinding fd i n) ∧
    getCase (addFinding s cid fd i n).2 cid = some
      { c with
        findings := shiftWhileOver (c.findings ++ [mkFinding fd i n]),
        timeline := trimTimeline (c.timeline
          ++ [⟨"finding", n, "Finding added: " ++ (mkFinding fd i n).title⟩]),
        updatedAt := n } := by
  constructor
  · simp [addFinding, hc]
  · simp only [addFinding, hc]
    rw [getCase_updateCase _ _ _ _ (by simp [noUpdates]),
        getCase_addTimelineEvent, getCase_set_findings, hc]
    simp [applyUpdates, noUpdates]

theorem addNote_effect (s : Store) (cid content : String) (i : String) (n : Nat)
    (c : Case) (hc : getCase s cid = some c) :
    (addNote s cid content i n).1 = some ⟨i, n, content⟩ ∧
    getCase (addNote s cid content i n).2 cid = some
      { c with
        notes := c.notes ++ [⟨i, n, content⟩],
        timeline := trimTimeline (c.timeline ++ [⟨"note", n, "Note added"⟩]),
        updatedAt := n } := by
  constructor
  · simp [addNote, hc]
  · simp only [addNote, hc]
    rw [getCase_updateCase _ _ _ _ (by simp [noUpdates]),
        getCase_addTimelineEvent, getCase_set_notes, hc]
    simp [applyUpdates, noUpdates]

theorem setToolStatus_effect (s : Store) (cid tid st : String) (n : Nat)
    (c : Case) (hst : TOOL_STATUSES.contains st = true)
    (hc : getCase s cid = some c) :
    (setToolStatus s cid tid st n).1 = true ∧
    getCase (setToolStatus s cid tid st n).2 cid = some
      { c with
        toolStatuses := assocSet c.toolStatuses tid st,
        timeline := trimTimeline (c.timeline
          ++ [⟨"status", n, "Tool marked as " ++ statusLabel st⟩]),
        updatedAt := n } := by
  have hmem : st ∈ TOOL_STATUSES := by simpa using hst
  constructor
  · simp [setToolStatus, hmem, hc]
  · simp only [setToolStatus, hst, if_true, hc]
    rw [getCase_updateCase _ _ _ _ (by simp [noUpdates]),
        getCase_addTimelineEvent, getCase_set_toolStatuses, hc]
    simp [applyUpdates, noUpdates]

theorem saveSearch_effect (s : Store) (v : SearchValues) (l : List LinkRef)
    (i : String) (n : Nat) (a c : Case) (cid : String)
    (ha : getActiveCase s = some a) (hid : a.id = cid)
    (hc : getCase s cid = some c) :
    getCase (saveSearchToCase s v l i n).2 cid = some
      { c with
        searches := a.searches ++ [mkSnapshot v l i n],
        timeline := trimTimeline (c.timeline
          ++ [⟨"search", n, "Search saved: " ++ formatSearchSummary v⟩]),
        updatedAt := n } := by
  simp only [saveSearchToCase, ha, hid]
  rw [getCase_updateCase _ _ _ _ (by simp [noUpdates]),
      getCase_addTimelineEvent]
  have hc1 : ∀ o : Option Case, getCase { s with cachedActive := o } cid = some c :=
    fun _ => hc
  rw [hc1]
  simp [applyUpdates, noUpdates]

/-
  Claim theorems.
-/

/-- C10: `createCase` always sets the new case's status to "active",
ignoring any status supplied in the case data (the construction never reads
`caseData.status`); the returned case is also the persisted case found
under the new id, so the stored status is "active" as well. -/
theorem createCase_status_always_active (s : Store) (d : CaseData)
    (newId : String) (now : Nat) :
    (createCase s d newId now).1.status = "active"
    ∧ getCase (createCase s d newId now).2 newId
        = some (createCase s d newId now).1 := by
  refine ⟨rfl, ?_⟩
  show findCase (popWhileOver (mkNewCase d newId now :: s.cases)) newId
    = some (mkNewCase d newId now)
  rw [popWhileOver_eq_take, show (MAX_CASES : Nat) = 49 + 1 from rfl,
      List.take_succ_cons, findCase,
      if_pos (show (mkNewCase d newId now).id = newId from rfl)]

/-- C4: for an existing case, `setToolStatus` with a status outside the
five-member enum returns false and leaves the store (hence `toolStatuses`
and the rest of the case) unchanged, raising no error; with "useful" it
returns true and afterwards `toolStatuses[toolId]` is "useful". -/
theorem toolStatus_validation (s : Store) (cid toolId : String) (now : Nat)
    (c : Case) (hc : getCase s cid = some c) :
    (∀ st, st ∉ TOOL_STATUSES → setToolStatus s cid toolId st now = (false, s))
    ∧ (setToolStatus s cid toolId "useful" now).1 = true
    ∧ ∃ c', getCase (setToolStatus s cid toolId "useful" now).2 cid = some c'
        ∧ assocGet c'.toolStatuses toolId = some "useful" := by
  refine ⟨?_, ?_, ?_⟩
  · intro st hst
    have hfalse : TOOL_STATUSES.contains st = false := by simpa using hst
    unfold setToolStatus
    rw [hfalse]
    rfl
  · exact (setToolStatus_effect s cid toolId "useful" now c (by decide) hc).1
  · exact ⟨_, (setToolStatus_effect s cid toolId "useful" now c (by decide) hc).2,
      assocGet_assocSet c.toolStatuses toolId "useful"⟩

/-- Witness for C4 at a concrete store, case and tool. -/
theorem toolStatus_validation_witness :
    (setToolStatus store1 "case-1" "social-0" "bogus-status" 200 = (false, store1))
    ∧ (setToolStatus store1 "case-1" "social-0" "useful" 200).1 = true
    ∧ ∃ c', getCase (setToolStatus store1 "case-1" "social-0" "useful" 200).2
          "case-1" = some c'
        ∧ assocGet c'.toolStatuses "social-0" = some "useful" := by
  have h := toolStatus_validation store1 "case-1" "social-0" 200
    (mkNewCase sampleCaseData "case-1" 100) (by rfl)
  exact ⟨h.1 "bogus-status" (by decide), h.2.1, h.2.2⟩

/-- C5 counterexample: `update` with partialFields that carry `id` and
`createdAt` overwrites both stored fields (the shallow merge validates
nothing), so they are not immutable under arbitrary partialFields. -/
theorem update_overwrites_id_createdAt :
    store1.cases.map (fun c => (c.id, c.createdAt)) = [("case-1", 100)]
    ∧ (updateCase store1 "case-1" clobberingUpdates 200).2.cases.map
        (fun c => (c.id, c.createdAt)) = [("hijacked", 999)] := by
  exact ⟨rfl, rfl⟩

/-- C5 (amended): `id` and `createdAt` are never changed by the four
content mutators, and are preserved by `update` whenever its partialFields
do not themselves contain an `id` or `createdAt` key; only such an update
can overwrite them. -/
theorem id_createdAt_frame (s : Store) (cid : String) (u : CaseUpdates) (now : Nat)
    (hid : u.id = none) (hca : u.createdAt = none) (m : MutatorCall) :
    (updateCase s cid u now).2.cases.map (fun c => (c.id, c.createdAt))
        = s.cases.map (fun c => (c.id, c.createdAt))
    ∧ (applyMutator s cid m).cases.map (fun c => (c.id, c.createdAt))
        = s.cases.map (fun c => (c.id, c.createdAt)) := by
  have key : ∀ (s' : Store) (cid' : String) (u' : CaseUpdates) (n' : Nat),
      u'.id = none → u'.createdAt = none →
      (updateCase s' cid' u' n').2.cases.map (fun c => (c.id, c.createdAt))
        = s'.cases.map (fun c => (c.id, c.createdAt)) := by
    intro s' cid' u' n' hid' hca'
    simp only [updateCase]
    cases h : (updateFirst s'.cases cid' (fun c => applyUpdates c u' n')).1 with
    | none => rfl
    | some updated =>
      exact map_updateFirst _ s'.cases cid'
        (fun x => by simp [applyUpdates, hid', hca'])
  have keyT : ∀ (s' : Store) (cid' ty d : String) (n' : Nat),
      (addTimelineEvent s' cid' ty d n').cases.map (fun c => (c.id, c.createdAt))
        = s'.cases.map (fun c => (c.id, c.createdAt)) := by
    intro s' cid' ty d n'
    exact map_updateFirst _ s'.cases cid' (fun x => rfl)
  refine ⟨key s cid u now hid hca, ?_⟩
  cases m with
  | saveSearch v l i n =>
    show (saveSearchToCase s v l i n).2.cases.map _ = _
    cases ha : getActiveCase s with
    | none => simp [saveSearchToCase, ha]
    | some a =>
      simp only [saveSearchToCase, ha]
      rw [key _ _ _ _ (by simp [noUpdates]) (by simp [noUpdates]), keyT]
  | setStatus t st n =>
    show (setToolStatus s cid t st n).2.cases.map _ = _
    cases hst : TOOL_STATUSES.contains st with
    | false =>
      unfold setToolStatus
      rw [hst]
      rfl
    | true =>
      cases hcase : getCase s cid with
      | none => simp [setToolStatus, hst, hcase]
      | some caseObj =>
        simp only [setToolStatus, hst, if_true, hcase]
        rw [key _ _ _ _ (by simp [noUpdates]) (by simp [noUpdates]), keyT]
        exact map_updateFirst _ s.cases cid (fun x => rfl)
  | newFinding fd i n =>
    show (addFinding s cid fd i n).2.cases.map _ = _
    cases hcase : getCase s cid with
    | none => simp [addFinding, hcase]
    | some caseObj =>
      simp only [addFinding, hcase]
      rw [key _ _ _ _ (by simp [noUpdates]) (by simp [noUpdates]), keyT]
      exact map_updateFirst _ s.cases cid (fun x => rfl)
  | newNote ct i n =>
    show (addNote s cid ct i n).2.cases.map _ = _
    cases hcase : getCase s cid with
    | none => simp [addNote, hcase]
    | some caseObj =>
      simp only [addNote, hcase]
      rw [key _ _ _ _ (by simp [noUpdates]) (by simp [noUpdates]), keyT]
      exact map_updateFirst _ s.cases cid (fun x => rfl)

/-- Witness for the amended C5 at a concrete store, update and mutator. -/
theorem id_createdAt_frame_witness :
    (updateCase store1 "case-1" renamingUpdates 300).2.cases.map
        (fun c => (c.id, c.createdAt))
      = store1.cases.map (fun c => (c.id, c.createdAt))
    ∧ (applyMutator store1 "case-1" (.newNote "hello" "note-1" 300)).cases.map
        (fun c => (c.id, c.createdAt))
      = store1.cases.map (fun c => (c.id, c.createdAt)) :=
  id_createdAt_frame store1 "case-1" renamingUpdates 300 (by rfl) (by rfl)
    (.newNote "hello" "note-1" 300)

/-- C7: when `getActive()` returns case X and `delete(X.id)` returns true,
`getActive()` afterwards returns none; deleting a non-existent id returns
false and leaves the store unchanged.  Case ids are assumed pairwise
distinct (they come from the unique-id generator). -/
theorem delete_active_clears_pointer (s : Store) (x : Case)
    (hnodup : (s.cases.map Case.id).Nodup)
    (hx : getActiveCase s = some x) (hdel : (deleteCase s x.id).1 = true) :
    getActiveCase (deleteCase s x.id).2 = none
    ∧ ∀ cid, getCase s cid = none → deleteCase s cid = (false, s) := by
  constructor
  · cases hr : (removeFirst s.cases x.id).1 with
    | false =>
      exfalso
      rw [deleteCase] at hdel
      simp only [hr, if_false] at hdel
      cases hdel
    | true =>
      rw [deleteCase]
      simp only [hr, if_true]
      cases hca : s.cachedActive with
      | some a =>
        have hax : a = x := by
          rw [getActiveCase, hca] at hx
          injection hx
        subst hax
        simp [setActiveCase, getActiveCase]
      | none =>
        rw [getActiveCase, hca] at hx
        cases hsa : s.storedActiveId with
        | none => rw [hsa] at hx; cases hx
        | some aid =>
          rw [hsa] at hx
          have haid : x.id = aid := findCase_some_id hx
          simp only [hca, getActiveCase, hsa]
          rw [← haid]
          show findCase (removeFirst s.cases x.id).2 x.id = none
          exact findCase_removeFirst_nodup hnodup
  · intro cid h
    have h1 := removeFirst_not_found h
    simp [deleteCase, h1]

/-- Witness for C7 at a concrete store with an active case. -/
theorem delete_active_clears_pointer_witness :
    getActiveCase (deleteCase store1Active
        (mkNewCase sampleCaseData "case-1" 100).id).2 = none
    ∧ ∀ cid, getCase store1Active cid = none
        → deleteCase store1Active cid = (false, store1Active) :=
  delete_active_clears_pointer store1Active (mkNewCase sampleCaseData "case-1" 100)
    (by decide) (by rfl) (by rfl)

/-- The case list after a non-empty run of creations: newest first, capped
at `MAX_CASES` by tail eviction. -/
theorem createAll_cases (inputs : List (CaseData × String × Nat)) (s : Store)
    (hne : inputs ≠ []) :
    (createAll s inputs).cases
      = List.take MAX_CASES
          ((inputs.map (fun x => mkNewCase x.1 x.2.1 x.2.2)).reverse ++ s.cases) := by
  induction inputs generalizing s with
  | nil => cases hne rfl
  | cons x rest ih =>
    have hstep : createAll s (x :: rest)
        = createAll (createCase s x.1 x.2.1 x.2.2).2 rest := by
      simp [createAll]
    by_cases hr : rest = []
    · subst hr
      rw [hstep]
      show (createCase s x.1 x.2.1 x.2.2).2.cases = _
      show popWhileOver (mkNewCase x.1 x.2.1 x.2.2 :: s.cases) = _
      rw [popWhileOver_eq_take]
      simp
    · rw [hstep, ih _ hr]
      show List.take MAX_CASES (_ ++ popWhileOver (mkNewCase x.1 x.2.1 x.2.2 :: s.cases)) = _
      rw [popWhileOver_eq_take, take_append_take]
      simp [List.append_assoc]

/-- C3 counterexample: create "case-1", set it active, then create fifty
more cases.  Exactly `MAX_CASES` cases persist and "case-1" is the evicted
one, but although the active-case pointer still references "case-1",
`getActiveCase` returns the stale cached copy of the evicted case rather
than none. -/
theorem case_cap_pointer_counterexample :
    capScenario.cases.length = MAX_CASES
    ∧ getCase capScenario "case-1" = none
    ∧ capScenario.storedActiveId = some "case-1"
    ∧ getActiveCase capScenario ≠ none := by
  refine ⟨by decide, by decide, by decide, by decide⟩

/-- C3 (amended): creating `MAX_CASES + 1` cases from an empty store leaves
exactly `MAX_CASES` persisted cases — the newest fifty, newest first, with
the first-created (list-tail) case evicted — and resolving the evicted id
fails, so a `getActive` that reads the stored pointer with no in-memory
cache (for example in a fresh session) returns none; only the in-session
cache can still return the stale evicted case. -/
theorem case_cap_amended (d0 : CaseData) (i0 : String) (t0 : Nat)
    (rest : List (CaseData × String × Nat))
    (hlen : rest.length = MAX_CASES)
    (hids : ∀ x ∈ rest, x.2.1 ≠ i0) :
    (createAll ⟨[], none, none⟩ ((d0, i0, t0) :: rest)).cases.length = MAX_CASES
    ∧ (createAll ⟨[], none, none⟩ ((d0, i0, t0) :: rest)).cases
        = (rest.map (fun x => mkNewCase x.1 x.2.1 x.2.2)).reverse
    ∧ getCase (createAll ⟨[], none, none⟩ ((d0, i0, t0) :: rest)) i0 = none
    ∧ getActiveCase { createAll ⟨[], none, none⟩ ((d0, i0, t0) :: rest) with
        cachedActive := none, storedActiveId := some i0 } = none := by
  have hcases := createAll_cases ((d0, i0, t0) :: rest) ⟨[], none, none⟩ (by simp)
  have hlenrev : ((rest.map (fun x => mkNewCase x.1 x.2.1 x.2.2)).reverse).length
      = MAX_CASES := by
    simp [hlen]
  have heq : (createAll ⟨[], none, none⟩ ((d0, i0, t0) :: rest)).cases
      = (rest.map (fun x => mkNewCase x.1 x.2.1 x.2.2)).reverse := by
    rw [hcases]
    simp only [List.map_cons, List.reverse_cons, List.append_nil]
    rw [← hlenrev, List.take_left]
  have hnone : getCase (createAll ⟨[], none, none⟩ ((d0, i0, t0) :: rest)) i0
      = none := by
    show findCase _ i0 = none
    rw [heq]
    refine findCase_eq_none ?_
    intro c hc
    rw [List.mem_reverse, List.mem_map] at hc
    obtain ⟨x, hx, rfl⟩ := hc
    exact hids x hx
  refine ⟨by rw [heq]; exact hlenrev, heq, hnone, ?_⟩
  show getCase _ i0 = none
  exact hnone

/-- Witness for the amended C3 at the concrete 51-creation scenario. -/
theorem case_cap_amended_witness :
    (createAll ⟨[], none, none⟩ ((sampleCaseData, "case-1", 1) :: fillerCreations)).cases.length
        = MAX_CASES
    ∧ (createAll ⟨[], none, none⟩ ((sampleCaseData, "case-1", 1) :: fillerCreations)).cases
        = (fillerCreations.map (fun x => mkNewCase x.1 x.2.1 x.2.2)).reverse
    ∧ getCase (createAll ⟨[], none, none⟩ ((sampleCaseData, "case-1", 1) :: fillerCreations))
        "case-1" = none
    ∧ getActiveCase { createAll ⟨[], none, none⟩
          ((sampleCaseData, "case-1", 1) :: fillerCreations) with
        cachedActive := none, storedActiveId := some "case-1" } = none :=
  case_cap_amended sampleCaseData "case-1" 1 fillerCreations (by decide) (by decide)

/-- Iterated insertion keeps, for a non-empty run, exactly the last
`MAX_FINDINGS_PER_CASE` of the initial findings followed by the inserted
ones. -/
theorem insertFindings_findings (inputs : List (FindingData × String × Nat))
    (s : Store) (cid : String) (c : Case) (hc : getCase s cid = some c)
    (hne : inputs ≠ []) :
    ∃ c', getCase (insertFindings s cid inputs) cid = some c'
      ∧ c'.findings = keepLast MAX_FINDINGS_PER_CASE
          (c.findings ++ inputs.map (fun x => mkFinding x.1 x.2.1 x.2.2)) := by
  induction inputs generalizing s c with
  | nil => cases hne rfl
  | cons x rest ih =>
    have heff := addFinding_effect s cid x.1 x.2.1 x.2.2 c hc
    by_cases hr : rest = []
    · subst hr
      refine ⟨_, heff.2, ?_⟩
      show shiftWhileOver (c.findings ++ [mkFinding x.1 x.2.1 x.2.2]) = _
      rw [shiftWhileOver_eq_keepLast]
      simp
    · obtain ⟨c', hget, hfind⟩ := ih _ _ heff.2 hr
      refine ⟨c', hget, ?_⟩
      rw [hfind]
      show keepLast MAX_FINDINGS_PER_CASE
          (shiftWhileOver (c.findings ++ [mkFinding x.1 x.2.1 x.2.2])
            ++ rest.map (fun y => mkFinding y.1 y.2.1 y.2.2))
        = keepLast MAX_FINDINGS_PER_CASE
          (c.findings ++ (x :: rest).map (fun y => mkFinding y.1 y.2.1 y.2.2))
      rw [shiftWhileOver_eq_keepLast, keepLast_keepLast_append]
      simp [List.append_assoc]

/-- C1: after inserting `MAX_FINDINGS_PER_CASE + k` findings (k ≥ 1) into
an existing case via `addFinding`, the case holds exactly
`MAX_FINDINGS_PER_CASE` findings, namely the most recently inserted ones in
insertion order (the oldest k were evicted one at a time from the front by
the shift loop). -/
theorem finding_cap_invariant (s : Store) (cid : String) (c : Case) (k : Nat)
    (inputs : List (FindingData × String × Nat))
    (hc : getCase s cid = some c)
    (hlen : inputs.length = MAX_FINDINGS_PER_CASE + k) (hk : 1 ≤ k) :
    ∃ c', getCase (insertFindings s cid inputs) cid = some c'
      ∧ c'.findings.length = MAX_FINDINGS_PER_CASE
      ∧ c'.findings = (inputs.map (fun x => mkFinding x.1 x.2.1 x.2.2)).drop k := by
  have hne : inputs ≠ [] := by
    intro h
    rw [h] at hlen
    simp [MAX_FINDINGS_PER_CASE] at hlen
    omega
  obtain ⟨c', hget, hfind⟩ := insertFindings_findings inputs s cid c hc hne
  refine ⟨c', hget, ?_, ?_⟩
  · rw [hfind, length_keepLast, List.length_append, List.length_map, hlen]
    simp [MAX_FINDINGS_PER_CASE]
    omega
  · rw [hfind]
    unfold keepLast
    rw [List.length_append, List.length_map, hlen, List.drop_append_eq_append_drop,
        List.drop_eq_nil_of_le (by omega), List.nil_append]
    have harith : c.findings.length + (MAX_FINDINGS_PER_CASE + k)
        - MAX_FINDINGS_PER_CASE - c.findings.length = k := by omega
    rw [harith]

/-- Witness for C1 with 501 concrete insertions into a fresh case. -/
theorem finding_cap_invariant_witness :
    ∃ c', getCase (insertFindings store1 "case-1" manyFindingInputs) "case-1" = some c'
      ∧ c'.findings.length = MAX_FINDINGS_PER_CASE
      ∧ c'.findings
          = (manyFindingInputs.map (fun x => mkFinding x.1 x.2.1 x.2.2)).drop 1 :=
  finding_cap_invariant store1 "case-1" (mkNewCase sampleCaseData "case-1" 100) 1
    manyFindingInputs (by rfl) (by simp [manyFindingInputs]) (by decide)

/-- A mutator call that appends to the case adds exactly its event to the
end of that case's timeline, trimmed to the last 200 entries. -/
theorem mutator_timeline_step (s : Store) (cid : String) (m : MutatorCall)
    (c : Case) (hc : getCase s cid = some c)
    (hm : mutatorAppends s cid m = true) :
    ∃ c', getCase (applyMutator s cid m) cid = some c'
      ∧ c'.timeline = trimTimeline (c.timeline ++ [mutatorEvent m]) := by
  unfold mutatorAppends at hm
  rw [Bool.and_eq_true] at hm
  cases m with
  | saveSearch v l i n =>
    cases ha : getActiveCase s with
    | none => rw [ha] at hm; cases hm.2
    | some a =>
      rw [ha] at hm
      have haid : a.id = cid := by simpa using hm.2
      exact ⟨_, saveSearch_effect s v l i n a c cid ha haid hc, rfl⟩
  | setStatus t st n =>
    exact ⟨_, (setToolStatus_effect s cid t st n c hm.2 hc).2, rfl⟩
  | newFinding fd i n =>
    exact ⟨_, (addFinding_effect s cid fd i n c hc).2, rfl⟩
  | newNote ct i n =>
    exact ⟨_, (addNote_effect s cid ct i n c hc).2, rfl⟩

/-- Any non-empty chain of appending mutator calls leaves the timeline
equal to the last 200 of the initial timeline plus the appended events. -/
theorem chain_timeline (ms : List MutatorCall) (s : Store) (cid : String)
    (c : Case) (hc : getCase s cid = some c)
    (hchain : chainAppends s cid ms = true) (hne : ms ≠ []) :
    ∃ c', getCase (applyMutators s cid ms) cid = some c'
      ∧ c'.timeline = keepLast 200 (c.timeline ++ ms.map mutatorEvent) := by
  induction ms generalizing s c with
  | nil => cases hne rfl
  | cons m rest ih =>
    rw [chainAppends, Bool.and_eq_true] at hchain
    obtain ⟨c1, hg1, ht1⟩ := mutator_timeline_step s cid m c hc hchain.1
    by_cases hr : rest = []
    · subst hr
      refine ⟨c1, by simpa [applyMutators] using hg1, ?_⟩
      rw [ht1, trimTimeline_eq_keepLast]
      simp
    · obtain ⟨c', hget, htl⟩ := ih _ _ hg1 hchain.2 hr
      refine ⟨c', by simpa [applyMutators] using hget, ?_⟩
      rw [htl, ht1, trimTimeline_eq_keepLast, keepLast_keepLast_append]
      simp [List.append_assoc]

/-- C2: after appending 250 timeline events to a case through any mix of
the four mutators, the timeline holds exactly 200 entries: the last 200
appended events in insertion order. -/
theorem timeline_window_invariant (s : Store) (cid : String)
    (ms : List MutatorCall) (hchain : chainAppends s cid ms = true)
    (hlen : ms.length = 250) :
    ∃ c', getCase (applyMutators s cid ms) cid = some c'
      ∧ c'.timeline.length = 200
      ∧ c'.timeline = (ms.map mutatorEvent).drop 50 := by
  have hne : ms ≠ [] := by
    intro h
    rw [h] at hlen
    cases hlen
  obtain ⟨m, rest, rfl⟩ := List.exists_cons_of_ne_nil hne
  have hm : mutatorAppends s cid m = true := by
    rw [chainAppends, Bool.and_eq_true] at hchain
    exact hchain.1
  have hsome : (getCase s cid).isSome = true := by
    unfold mutatorAppends at hm
    rw [Bool.and_eq_true] at hm
    exact hm.1
  obtain ⟨c, hc⟩ := Option.isSome_iff_exists.mp hsome
  obtain ⟨c', hget, htl⟩ := chain_timeline (m :: rest) s cid c hc hchain (by simp)
  refine ⟨c', hget, ?_, ?_⟩
  · rw [htl, length_keepLast, List.length_append, List.length_map, hlen]
    omega
  · rw [htl]
    unfold keepLast
    rw [List.length_append, List.length_map, hlen, List.drop_append_eq_append_drop,
        List.drop_eq_nil_of_le (by omega), List.nil_append]
    have harith : c.timeline.length + 250 - 200 - c.timeline.length = 50 := by omega
    rw [harith]

/-- Witness for C2 with a concrete chain of 250 note additions. -/
theorem timeline_window_invariant_witness :
    ∃ c', getCase (applyMutators store1 "case-1" manyNoteCalls) "case-1" = some c'
      ∧ c'.timeline.length = 200
      ∧ c'.timeline = (manyNoteCalls.map mutatorEvent).drop 50 :=
  timeline_window_invariant store1 "case-1" manyNoteCalls (by decide)
    (by simp [manyNoteCalls])

/-- C6 counterexample: the export filename keeps the seconds (19 sanitized
ISO characters, `YYYY-MM-DDTHH-MM-SS`), so at a clock reading with seconds
it differs from the minute-truncated filename the claim describes. -/
theorem export_filename_counterexample :
    (exportCase store1 "case-1" "json" sampleIso 100).map ExportData.filename
        = some "spectre-case-test-case-2026-10-11T12-34-56.json"
    ∧ specMinuteFilename "Test Case" sampleIso ".json"
        = "spectre-case-test-case-2026-10-11T12-34.json"
    ∧ (exportCase store1 "case-1" "json" sampleIso 100).map ExportData.filename
        ≠ some (specMinuteFilename "Test Case" sampleIso ".json") := by
  refine ⟨by decide, by decide, by decide⟩

/-- C6 (amended): for every case and each format in json/markdown/html,
the export filename is `spectre-case-` plus the slugified case name plus
the ISO-derived timestamp truncated to the second (its ':' and '.'
replaced by '-') plus the format's extension; the mime type matches the
format. -/
theorem export_filename_format (s : Store) (cid format isoNow : String)
    (now : Nat) (c : Case) (hc : getCase s cid = some c)
    (hf : format = "json" ∨ format = "markdown" ∨ format = "html") :
    (exportCase s cid format isoNow now).map ExportData.filename
      = some ("spectre-case-" ++ slugify c.name ++ "-" ++ isoTimestamp isoNow
          ++ formatExt format)
    ∧ (exportCase s cid format isoNow now).map ExportData.mimeType
      = some (formatMime format) := by
  rcases hf with h | h | h <;> subst h <;>
    simp [exportCase, hc, formatExt, formatMime]

/-- Witness for the amended C6 at a concrete case and clock reading. -/
theorem export_filename_format_witness :
    (exportCase store1 "case-1" "markdown" sampleIso 100).map ExportData.filename
      = some ("spectre-case-" ++ slugify (mkNewCase sampleCaseData "case-1" 100).name
          ++ "-" ++ isoTimestamp sampleIso ++ formatExt "markdown")
    ∧ (exportCase store1 "case-1" "markdown" sampleIso 100).map ExportData.mimeType
      = some (formatMime "markdown") :=
  export_filename_format store1 "case-1" "markdown" sampleIso 100
    (mkNewCase sampleCaseData "case-1" 100) (by rfl) (Or.inr (Or.inl rfl))

/-- C9: the persistence adapter contains errors: `get` returns the default
when the key is absent or the stored blob fails to parse as JSON (and,
being a total function, never throws); `set` returns true exactly on an
accepted write, and returns false — rather than throwing — when the
underlying store rejects it. -/
theorem storage_error_containment (st : StorageState) (key : String)
    (dflt v : Json) :
    (getItem st key = none → storageGet st key dflt = dflt)
    ∧ (∀ blob, getItem st key = some blob → parseJson blob = none →
        storageGet st key dflt = dflt)
    ∧ (st.writeOk key (stringifyCompact v) = true →
        storageSet st key v
          = (true, { st with items := assocSet st.items key (stringifyCompact v) }))
    ∧ (st.writeOk key (stringifyCompact v) = false →
        (storageSet st key v).1 = false) := by
  refine ⟨?_, ?_, ?_, ?_⟩
  · intro h
    simp [storageGet, h]
  · intro blob hb hp
    by_cases hblank : blob = ""
    · simp [storageGet, hb, hblank]
    · simp [storageGet, hb, hblank, hp]
  · intro h
    simp [storageSet, h]
  · intro h
    simp [storageSet, h]

/-- Witness for C9 at concrete stores: an absent key, a corrupt blob, a
rejected write and an accepted write. -/
theorem storage_error_containment_witness :
    (storageGet emptyAcceptingStorage "missing" Json.null = Json.null)
    ∧ (storageGet corruptStorage "bad" Json.null = Json.null)
    ∧ ((storageSet rejectingStorage "k" Json.null).1 = false)
    ∧ (storageSet emptyAcceptingStorage "k" Json.null
        = (true, { emptyAcceptingStorage with
            items := assocSet emptyAcceptingStorage.items "k"
              (stringifyCompact Json.null) })) := by
  refine ⟨(storage_error_containment emptyAcceptingStorage "missing" Json.null
      Json.null).1 (by rfl),
    (storage_error_containment corruptStorage "bad" Json.null Json.null).2.1
      "not json" (by rfl) (by rfl),
    (storage_error_containment rejectingStorage "k" Json.null Json.null).2.2.2
      (by rfl),
    (storage_error_containment emptyAcceptingStorage "k" Json.null Json.null).2.2.1
      (by rfl)⟩

/-
  Digit and number lemmas for the JSON round trip.
-/

theorem natDigitsGo_eq_spec : ∀ (fuel n : Nat) (acc : List Char), n < fuel →
    natDigitsGo fuel n acc = natDigitsSpec n ++ acc := by
  intro fuel
  induction fuel with
  | zero => intro n acc h; omega
  | succ fuel ih =>
    intro n acc h
    rw [natDigitsGo]
    by_cases h10 : n < 10
    · rw [if_pos h10, natDigitsSpec, dif_pos h10]
      rfl
    · have hdiv : n / 10 < n := Nat.div_lt_self (by omega) (by omega)
      rw [if_neg h10, ih (n / 10) _ (by omega)]
      conv_rhs => rw [natDigitsSpec]
      rw [dif_neg h10]
      simp

theorem natToDigits_eq_spec (n : Nat) : natToDigits n = natDigitsSpec n := by
  rw [natToDigits, natDigitsGo_eq_spec (n + 1) n [] (by omega), List.append_nil]

theorem digitChar_isDigit {d : Nat} (h : d < 10) : (digitChar d).isDigit = true := by
  interval_cases d <;> decide

theorem digitVal_digitChar {d : Nat} (h : d < 10) : digitVal (digitChar d) = d := by
  interval_cases d <;> decide

theorem digitChar_not_ws {d : Nat} (h : d < 10) : isWs (digitChar d) = false := by
  interval_cases d <;> decide

theorem digitChar_ne_keyword {d : Nat} (h : d < 10) :
    digitChar d ≠ 'n' ∧ digitChar d ≠ 't' ∧ digitChar d ≠ 'f' ∧ digitChar d ≠ '"'
    ∧ digitChar d ≠ '[' ∧ digitChar d ≠ braceOpen ∧ digitChar d ≠ '-'
    ∧ digitChar d ≠ ']' ∧ digitChar d ≠ braceClose ∧ digitChar d ≠ ','
    ∧ digitChar d ≠ ':' := by
  interval_cases d <;> decide

theorem natDigitsSpec_head (n : Nat) :
    ∃ d ds, natDigitsSpec n = digitChar d :: ds ∧ d < 10 := by
  induction n using Nat.strong_induction_on with
  | _ n ih =>
    rw [natDigitsSpec]
    by_cases h10 : n < 10
    · rw [dif_pos h10]
      exact ⟨n, [], rfl, h10⟩
    · rw [dif_neg h10]
      obtain ⟨d, ds, hspec, hd⟩ := ih (n / 10) (Nat.div_lt_self (by omega) (by omega))
      exact ⟨d, ds ++ [digitChar (n % 10)], by rw [hspec]; simp, hd⟩

theorem parseDigitsGo_stop {rest : List Char} (a : Nat) (h : noDigitHead rest) :
    parseDigitsGo rest a = (a, rest) := by
  cases rest with
  | nil => rfl
  | cons c cs =>
    unfold noDigitHead at h
    unfold parseDigitsGo
    rw [h]
    rfl

theorem parseDigitsGo_spec : ∀ (n : Nat) (rest : List Char) (a : Nat),
    parseDigitsGo (natDigitsSpec n ++ rest) a
      = parseDigitsGo rest (a * 10 ^ (natDigitsSpec n).length + n) := by
  intro n
  induction n using Nat.strong_induction_on with
  | _ n ih =>
    intro rest a
    rw [natDigitsSpec]
    by_cases h10 : n < 10
    · rw [dif_pos h10]
      show parseDigitsGo (digitChar n :: rest) a = _
      unfold parseDigitsGo
      rw [digitChar_isDigit h10]
      simp only [if_true]
      rw [digitVal_digitChar h10]
      have harith : 10 * a + n = a * 10 ^ ([digitChar n].length) + n := by
        simp [pow_one]
        omega
      rw [harith]
      rw [parseDigitsGo.eq_def]
    · rw [dif_neg h10, List.append_assoc,
          ih (n / 10) (Nat.div_lt_self (by omega) (by omega))]
      show parseDigitsGo (digitChar (n % 10) :: rest) _ = _
      unfold parseDigitsGo
      rw [digitChar_isDigit (Nat.mod_lt _ (by omega))]
      simp only [if_true]
      rw [digitVal_digitChar (Nat.mod_lt _ (by omega))]
      have hlen : (natDigitsSpec (n / 10) ++ [digitChar (n % 10)]).length
          = (natDigitsSpec (n / 10)).length + 1 := by simp
      rw [hlen]
      have hdm := Nat.div_add_mod n 10
      have hpow : a * 10 ^ ((natDigitsSpec (n / 10)).length + 1)
          = (a * 10 ^ (natDigitsSpec (n / 10)).length) * 10 := by
        rw [pow_succ]; ring
      rw [hpow]
      have harith : ∀ t : Nat, 10 * (a * 10 ^ (natDigitsSpec (n / 10)).length + n / 10)
          + n % 10 = a * 10 ^ (natDigitsSpec (n / 10)).length * 10 + n → True := fun _ _ => trivial
      have hgen : 10 * (a * 10 ^ (natDigitsSpec (n / 10)).length + n / 10) + n % 10
          = a * 10 ^ (natDigitsSpec (n / 10)).length * 10 + n := by
        have ht : ∀ t : Nat, 10 * (t + n / 10) + n % 10 = t * 10 + n := by
          intro t; omega
        exact ht _
      rw [hgen]
      rw [parseDigitsGo.eq_def]

theorem parseDigits_natToDigits (n : Nat) (rest : List Char) (h : noDigitHead rest) :
    parseDigitsGo (natToDigits n ++ rest) 0 = (n, rest) := by
  rw [natToDigits_eq_spec, parseDigitsGo_spec, Nat.zero_mul, Nat.zero_add,
      parseDigitsGo_stop _ h]

theorem natToDigits_head (n : Nat) :
    ∃ d ds, natToDigits n = digitChar d :: ds ∧ d < 10 := by
  rw [natToDigits_eq_spec]
  exact natDigitsSpec_head n

/-
  Whitespace lemmas.
-/

theorem skipWs_append_ws : ∀ (w x : List Char), (∀ c ∈ w, isWs c = true) →
    skipWs (w ++ x) = skipWs x := by
  intro w
  induction w with
  | nil => intro x _; rfl
  | cons c cs ih =>
    intro x h
    show skipWs (c :: (cs ++ x)) = skipWs x
    rw [show skipWs (c :: (cs ++ x))
        = if isWs c then skipWs (cs ++ x) else c :: (cs ++ x) from rfl,
      h c (by simp)]
    simp only [if_true]
    exact ih x (fun c2 hc2 => h c2 (by simp [hc2]))

theorem skipWs_cons_not_ws {c : Char} (x : List Char) (h : isWs c = false) :
    skipWs (c :: x) = c :: x := by
  unfold skipWs
  rw [h]
  rfl

theorem isWs_iff {c : Char} :
    isWs c = true ↔ c = ' ' ∨ c = '\n' ∨ c = '\t' ∨ c = '\r' := by
  simp [isWs, or_assoc]

theorem isWs_not_digit {c : Char} (h : isWs c = true) : c.isDigit = false := by
  rcases isWs_iff.mp h with rfl | rfl | rfl | rfl <;> decide

theorem indentChars_ws (d : Nat) : ∀ c ∈ indentChars d, isWs c = true := by
  intro c hc
  rw [indentChars, List.mem_replicate] at hc
  rw [hc.2]
  decide

/-
  String-body round trip.
-/

theorem parseStringGo_escape : ∀ (cs acc rest : List Char) (fuel : Nat),
    (cs.flatMap escapeChar).length + 1 ≤ fuel →
    parseStringGo fuel (cs.flatMap escapeChar ++ '"' :: rest) acc
      = some (String.mk (acc.reverse ++ cs), rest) := by
  intro cs
  induction cs with
  | nil =>
    intro acc rest fuel hf
    rw [List.flatMap_nil] at *
    cases fuel with
    | zero => omega
    | succ f =>
      show parseStringGo (f + 1) ('"' :: rest) acc = _
      unfold parseStringGo
      rw [if_pos rfl]
      simp
  | cons c cs ih =>
    intro acc rest fuel hf
    rw [List.flatMap_cons] at hf ⊢
    by_cases h1 : c = '"'
    · subst h1
      rw [show escapeChar '"' = ['\\', '"'] from rfl] at hf ⊢
      cases fuel with
      | zero => simp at hf
      | succ f =>
        show parseStringGo f (cs.flatMap escapeChar ++ '"' :: rest) ('"' :: acc)
          = some (String.mk (acc.reverse ++ '"' :: cs), rest)
        rw [ih ('"' :: acc) rest f (by simp at hf ⊢; omega)]
        simp
    · by_cases h2 : c = '\\'
      · subst h2
        rw [show escapeChar '\\' = ['\\', '\\'] from rfl] at hf ⊢
        cases fuel with
        | zero => simp at hf
        | succ f =>
          show parseStringGo f (cs.flatMap escapeChar ++ '"' :: rest) ('\\' :: acc)
            = some (String.mk (acc.reverse ++ '\\' :: cs), rest)
          rw [ih ('\\' :: acc) rest f (by simp at hf ⊢; omega)]
          simp
      · by_cases h3 : c = '\n'
        · subst h3
          rw [show escapeChar '\n' = ['\\', 'n'] from rfl] at hf ⊢
          cases fuel with
          | zero => simp at hf
          | succ f =>
            show parseStringGo f (cs.flatMap escapeChar ++ '"' :: rest) ('\n' :: acc)
              = some (String.mk (acc.reverse ++ '\n' :: cs), rest)
            rw [ih ('\n' :: acc) rest f (by simp at hf ⊢; omega)]
            simp
        · by_cases h4 : c = '\t'
          · subst h4
            rw [show escapeChar '\t' = ['\\', 't'] from rfl] at hf ⊢
            cases fuel with
            | zero => simp at hf
            | succ f =>
              show parseStringGo f (cs.flatMap escapeChar ++ '"' :: rest) ('\t' :: acc)
                = some (String.mk (acc.reverse ++ '\t' :: cs), rest)
              rw [ih ('\t' :: acc) rest f (by simp at hf ⊢; omega)]
              simp
          · by_cases h5 : c = '\r'
            · subst h5
              rw [show escapeChar '\r' = ['\\', 'r'] from rfl] at hf ⊢
              cases fuel with
              | zero => simp at hf
              | succ f =>
                show parseStringGo f (cs.flatMap escapeChar ++ '"' :: rest) ('\r' :: acc)
                  = some (String.mk (acc.reverse ++ '\r' :: cs), rest)
                rw [ih ('\r' :: acc) rest f (by simp at hf ⊢; omega)]
                simp
            · have hesc : escapeChar c = [c] := by
                unfold escapeChar
                rw [if_neg h1, if_neg h2, if_neg h3, if_neg h4, if_neg h5]
              rw [hesc] at hf ⊢
              cases fuel with
              | zero => simp at hf
              | succ f =>
                show parseStringGo (f + 1) (c :: (cs.flatMap escapeChar ++ '"' :: rest)) acc = _
                unfold parseStringGo
                rw [if_neg h1, if_neg h2]
                rw [ih (c :: acc) rest f (by simp at hf ⊢; omega)]
                simp

theorem parseString_escapeString (s : String) (rest : List Char) (fuel : Nat)
    (hf : (escapeString s).length + 1 ≤ fuel) :
    parseStringGo fuel (escapeString s ++ '"' :: rest) [] = some (s, rest) := by
  rw [escapeString] at hf ⊢
  rw [parseStringGo_escape s.toList [] rest fuel hf]
  simp

/-
  Parser dispatch lemmas (one per literal head character) and a nested
  induction principle for JSON values.
-/

theorem skipWs_idem (s : List Char) : skipWs (skipWs s) = skipWs s := by
  induction s with
  | nil => rfl
  | cons c cs ih =>
    by_cases h : isWs c = true
    · rw [show skipWs (c :: cs) = skipWs cs from by
        rw [show skipWs (c :: cs) = if isWs c then skipWs cs else c :: cs from rfl, h]
        simp]
      exact ih
    · rw [skipWs_cons_not_ws cs (by simpa using h),
          skipWs_cons_not_ws cs (by simpa using h)]

theorem parseVal_skipWs (f : Nat) (s : List Char) :
    parseVal (f + 1) s = parseVal (f + 1) (skipWs s) := by
  rw [parseVal, parseVal, skipWs_idem]

theorem parseVal_null (f : Nat) (r : List Char) :
    parseVal (f + 1) ('n' :: 'u' :: 'l' :: 'l' :: r) = some (.null, r) := rfl

theorem parseVal_true (f : Nat) (r : List Char) :
    parseVal (f + 1) ('t' :: 'r' :: 'u' :: 'e' :: r) = some (.bool true, r) := rfl

theorem parseVal_false (f : Nat) (r : List Char) :
    parseVal (f + 1) ('f' :: 'a' :: 'l' :: 's' :: 'e' :: r) = some (.bool false, r) := rfl

theorem parseVal_quote (f : Nat) (x : List Char) :
    parseVal (f + 1) ('"' :: x)
      = (match parseStringGo x.length x [] with
        | some (str, r) => some (.str str, r)
        | none => none) := rfl

theorem parseVal_bracket (f : Nat) (x : List Char) :
    parseVal (f + 1) ('[' :: x)
      = (match skipWs x with
        | c2 :: r => if c2 = ']' then some (.arr [], r) else parseElems f (c2 :: r) []
        | [] => none) := rfl

theorem parseVal_brace (f : Nat) (x : List Char) :
    parseVal (f + 1) (braceOpen :: x)
      = (match skipWs x with
        | c2 :: r =>
          if c2 = braceClose then some (.obj [], r)
          else parseFields f (c2 :: r) []
        | [] => none) := rfl

theorem parseVal_minus (f : Nat) (x : List Char) :
    parseVal (f + 1) ('-' :: x)
      = (match x with
        | d :: r =>
          if d.isDigit then
            let p := parseDigitsGo (d :: r) 0
            some (.num (-(p.1 : Int)), p.2)
          else none
        | [] => none) := rfl

theorem parseVal_digit (f : Nat) {d : Nat} (hd : d < 10) (x : List Char) :
    parseVal (f + 1) (digitChar d :: x)
      = some (.num ((parseDigitsGo (digitChar d :: x) 0).1 : Int),
              (parseDigitsGo (digitChar d :: x) 0).2) := by
  interval_cases d <;> rfl

theorem parseElems_succ (f : Nat) (s : List Char) (acc : List Json) :
    parseElems (f + 1) s acc
      = (match parseVal f s with
        | none => none
        | some (j, r) =>
          match skipWs r with
          | c :: r2 =>
            if c = ',' then parseElems f r2 (j :: acc)
            else if c = ']' then some (.arr (j :: acc).reverse, r2)
            else none
          | [] => none) := rfl

theorem parseFields_succ (f : Nat) (s : List Char) (acc : List (String × Json)) :
    parseFields (f + 1) s acc
      = (match skipWs s with
        | [] => none
        | c :: rest =>
          if c = '"' then
            match parseStringGo rest.length rest [] with
            | none => none
            | some (key, r) =>
              match skipWs r with
              | [] => none
              | c2 :: r2 =>
                if c2 = ':' then
                  match parseVal f r2 with
                  | none => none
                  | some (j, r3) =>
                    match skipWs r3 with
                    | [] => none
                    | c3 :: r4 =>
                      if c3 = ',' then parseFields f r4 ((key, j) :: acc)
                      else if c3 = braceClose then
                        some (.obj ((key, j) :: acc).reverse, r4)
                      else none
                else none
          else none) := rfl

theorem json_sizeOf_pos (j : Json) : 1 ≤ sizeOf j := by
  cases j <;> simp

theorem json_induction (P : Json → Prop)
    (hnull : P .null) (hbool : ∀ b, P (.bool b)) (hnum : ∀ i, P (.num i))
    (hstr : ∀ s, P (.str s))
    (harr : ∀ xs, (∀ x ∈ xs, P x) → P (.arr xs))
    (hobj : ∀ kvs, (∀ kv ∈ kvs, P kv.2) → P (.obj kvs)) : ∀ j, P j := by
  have key : ∀ n : Nat, ∀ j : Json, sizeOf j ≤ n → P j := by
    intro n
    induction n using Nat.strong_induction_on with
    | _ n ih =>
      intro j hj
      cases j with
      | null => exact hnull
      | bool b => exact hbool b
      | num i => exact hnum i
      | str s => exact hstr s
      | arr xs =>
        refine harr xs (fun x hx => ?_)
        have h1 := List.sizeOf_lt_of_mem hx
        have h2 : sizeOf (Json.arr xs) = 1 + sizeOf xs := by simp
        exact ih (sizeOf x) (by omega) x (le_refl _)
      | obj kvs =>
        refine hobj kvs (fun kv hkv => ?_)
        have h1 := List.sizeOf_lt_of_mem hkv
        have h2 : sizeOf (Json.obj kvs) = 1 + sizeOf kvs := by simp
        have h3 : sizeOf kv.2 < sizeOf kv := by
          cases kv with
          | mk a b => simp
        exact ih (sizeOf kv.2) (by omega) kv.2 (le_refl _)
  exact fun j => key (sizeOf j) j (le_refl _)

theorem jsonListWeight_le_tail (xs : List Json)
    (ih : ∀ x ∈ xs, ∀ depth : Nat, jsonWeight x ≤ (renderPretty depth x).length + 1) :
    ∀ depth : Nat, jsonListWeight xs ≤ (renderArrTail depth xs).length + 1 := by
  induction xs with
  | nil =>
    intro depth
    rw [jsonListWeight, renderArrTail]
    simp
  | cons x xs ihl =>
    intro depth
    have h1 := ih x (by simp) depth
    have h2 := ihl (fun y hy => ih y (by simp [hy])) depth
    rw [jsonListWeight, renderArrTail]
    simp only [List.length_cons, List.length_append]
    omega

theorem jsonFieldsWeight_le_tail (kvs : List (String × Json))
    (ih : ∀ kv ∈ kvs, ∀ depth : Nat, jsonWeight kv.2 ≤ (renderPretty depth kv.2).length + 1) :
    ∀ depth : Nat, jsonFieldsWeight kvs ≤ (renderObjTail depth kvs).length + 1 := by
  induction kvs with
  | nil =>
    intro depth
    rw [jsonFieldsWeight, renderObjTail]
    simp
  | cons kv kvs ihl =>
    intro depth
    have h1 := ih kv (by simp) depth
    have h2 := ihl (fun y hy => ih y (by simp [hy])) depth
    rw [jsonFieldsWeight, renderObjTail]
    cases kv with
    | mk k v =>
      rw [renderField]
      simp only [List.length_cons, List.length_append] at h1 ⊢
      omega

theorem jsonWeight_le_render (j : Json) :
    ∀ depth : Nat, jsonWeight j ≤ (renderPretty depth j).length + 1 := by
  induction j using json_induction with
  | hnull => intro depth; rw [jsonWeight, renderPretty]; simp
  | hbool b => intro depth; cases b <;> (rw [jsonWeight, renderPretty]; simp)
  | hnum i => intro depth; rw [jsonWeight]; omega
  | hstr s => intro depth; rw [jsonWeight, renderPretty]; simp
  | harr xs ih =>
    intro depth
    cases xs with
    | nil => rw [jsonWeight, jsonListWeight, renderPretty]; simp
    | cons x xs2 =>
      have h1 := ih x (by simp) (depth + 1)
      have h2 := jsonListWeight_le_tail xs2 (fun y hy => ih y (by simp [hy])) (depth + 1)
      rw [jsonWeight, jsonListWeight, renderPretty]
      simp only [List.length_cons, List.length_append]
      omega
  | hobj kvs ih =>
    intro depth
    cases kvs with
    | nil => rw [jsonWeight, jsonFieldsWeight, renderPretty]; simp
    | cons kv kvs2 =>
      have h1 := ih kv (by simp) (depth + 1)
      have h2 := jsonFieldsWeight_le_tail kvs2 (fun y hy => ih y (by simp [hy])) (depth + 1)
      rw [jsonWeight, jsonFieldsWeight, renderPretty]
      cases kv with
      | mk k v =>
        rw [renderField]
        simp only [List.length_cons, List.length_append] at h1 h2 ⊢
        omega

theorem parseVal_minus_digit (f : Nat) {d : Nat} (hd : d < 10) (x : List Char) :
    parseVal (f + 1) ('-' :: digitChar d :: x)
      = some (.num (-((parseDigitsGo (digitChar d :: x) 0).1 : Int)),
              (parseDigitsGo (digitChar d :: x) 0).2) := by
  interval_cases d <;> rfl

theorem jsonWeight_pos (j : Json) : 1 ≤ jsonWeight j := by
  cases j <;> rw [jsonWeight] <;> omega

theorem jsonListWeight_pos (xs : List Json) : 1 ≤ jsonListWeight xs := by
  cases xs <;> rw [jsonListWeight] <;> omega

theorem jsonFieldsWeight_pos (kvs : List (String × Json)) : 1 ≤ jsonFieldsWeight kvs := by
  cases kvs <;> rw [jsonFieldsWeight] <;> omega

theorem noDigitHead_ws_append (w : List Char) (c : Char) (y : List Char)
    (hw : ∀ ch ∈ w, isWs ch = true) (hc : c.isDigit = false) :
    noDigitHead (w ++ c :: y) := by
  cases w with
  | nil => exact hc
  | cons a as => exact isWs_not_digit (hw a (by simp))

theorem numGuard_nil (j : Json) : numGuard j [] := by
  cases j <;> exact trivial

theorem nl_indent_ws (d : Nat) : ∀ c ∈ '\n' :: indentChars d, isWs c = true := by
  intro c hc
  rcases List.mem_cons.mp hc with h | h
  · rw [h]; decide
  · exact indentChars_ws d c h

theorem skipWs_nl_indent (d : Nat) (z : List Char) :
    skipWs ('\n' :: (indentChars d ++ z)) = skipWs z := by
  rw [show ('\n' :: (indentChars d ++ z)) = ('\n' :: indentChars d) ++ z from rfl]
  exact skipWs_append_ws _ z (nl_indent_ws d)

theorem renderPretty_null (depth : Nat) :
    renderPretty depth .null = 'n' :: 'u' :: 'l' :: 'l' :: [] := by
  rw [renderPretty]

theorem renderPretty_true (depth : Nat) :
    renderPretty depth (.bool true) = 't' :: 'r' :: 'u' :: 'e' :: [] := by
  rw [renderPretty]; rfl

theorem renderPretty_false (depth : Nat) :
    renderPretty depth (.bool false) = 'f' :: 'a' :: 'l' :: 's' :: 'e' :: [] := by
  rw [renderPretty]; rfl

theorem renderPretty_num (depth : Nat) (i : Int) :
    renderPretty depth (.num i) = intToChars i := by
  rw [renderPretty]

theorem renderPretty_str (depth : Nat) (s : String) :
    renderPretty depth (.str s) = '"' :: (escapeString s ++ ['"']) := by
  rw [renderPretty]

theorem renderPretty_arrNil (depth : Nat) :
    renderPretty depth (.arr []) = '[' :: ']' :: [] := by
  rw [renderPretty]

theorem renderPretty_arrCons (depth : Nat) (x : Json) (xs : List Json) :
    renderPretty depth (.arr (x :: xs))
      = '[' :: '\n' :: (indentChars (depth + 1) ++ renderPretty (depth + 1) x
          ++ renderArrTail (depth + 1) xs ++ '\n' :: (indentChars depth ++ [']'])) := by
  rw [renderPretty]

theorem renderPretty_objNil (depth : Nat) :
    renderPretty depth (.obj []) = braceOpen :: braceClose :: [] := by
  rw [renderPretty]

theorem renderPretty_objCons (depth : Nat) (kv : String × Json)
    (kvs : List (String × Json)) :
    renderPretty depth (.obj (kv :: kvs))
      = braceOpen :: '\n' :: (indentChars (depth + 1) ++ renderField (depth + 1) kv
          ++ renderObjTail (depth + 1) kvs ++ '\n' :: (indentChars depth ++ [braceClose])) := by
  rw [renderPretty]

theorem renderField_eq (depth : Nat) (k : String) (v : Json) :
    renderField depth (k, v)
      = '"' :: (escapeString k ++ '"' :: ':' :: ' ' :: renderPretty depth v) := by
  rw [renderField]

theorem renderArrTail_nil (depth : Nat) : renderArrTail depth [] = [] := by
  rw [renderArrTail]

theorem renderArrTail_cons (depth : Nat) (x : Json) (xs : List Json) :
    renderArrTail depth (x :: xs)
      = ',' :: '\n' :: (indentChars depth ++ renderPretty depth x
          ++ renderArrTail depth xs) := by
  rw [renderArrTail]

theorem renderObjTail_nil (depth : Nat) : renderObjTail depth [] = [] := by
  rw [renderObjTail]

theorem renderObjTail_cons (depth : Nat) (kv : String × Json)
    (kvs : List (String × Json)) :
    renderObjTail depth (kv :: kvs)
      = ',' :: '\n' :: (indentChars depth ++ renderField depth kv
          ++ renderObjTail depth kvs) := by
  rw [renderObjTail]

theorem renderPretty_head (depth : Nat) (j : Json) :
    ∃ c cs, renderPretty depth j = c :: cs ∧ isWs c = false ∧ c ≠ ']' := by
  cases j with
  | null => exact ⟨'n', _, renderPretty_null depth, by decide, by decide⟩
  | bool b =>
    cases b with
    | true => exact ⟨'t', _, renderPretty_true depth, by decide, by decide⟩
    | false => exact ⟨'f', _, renderPretty_false depth, by decide, by decide⟩
  | num i =>
    rw [renderPretty_num, intToChars]
    by_cases hi : i < 0
    · rw [if_pos hi]
      exact ⟨'-', _, rfl, by decide, by decide⟩
    · rw [if_neg hi]
      obtain ⟨d, ds, hnd, hd⟩ := natToDigits_head i.natAbs
      rw [hnd]
      exact ⟨digitChar d, ds, rfl, digitChar_not_ws hd,
        (digitChar_ne_keyword hd).2.2.2.2.2.2.2.1⟩
  | str s => exact ⟨'"', _, renderPretty_str depth s, by decide, by decide⟩
  | arr xs =>
    cases xs with
    | nil => exact ⟨'[', _, renderPretty_arrNil depth, by decide, by decide⟩
    | cons x xs => exact ⟨'[', _, renderPretty_arrCons depth x xs, by decide, by decide⟩
  | obj kvs =>
    cases kvs with
    | nil => exact ⟨braceOpen, _, renderPretty_objNil depth, by decide, by decide⟩
    | cons kv kvs =>
      exact ⟨braceOpen, _, renderPretty_objCons depth kv kvs, by decide, by decide⟩

theorem numGuard_arrTail (x : Json) (depth : Nat) (xs : List Json) (w2 rest : List Char)
    (hw2 : ∀ c ∈ w2, isWs c = true) :
    numGuard x (renderArrTail depth xs ++ (w2 ++ ']' :: rest)) := by
  cases x with
  | num i =>
    show noDigitHead _
    cases xs with
    | nil =>
      rw [renderArrTail_nil]
      simp only [List.nil_append]
      exact noDigitHead_ws_append w2 ']' rest hw2 (by decide)
    | cons y ys =>
      rw [renderArrTail_cons]
      exact (by decide : (',' : Char).isDigit = false)
  | null => exact trivial
  | bool b => exact trivial
  | str s => exact trivial
  | arr l => exact trivial
  | obj l => exact trivial

theorem numGuard_objTail (v : Json) (depth : Nat) (kvs : List (String × Json))
    (w2 rest : List Char) (hw2 : ∀ c ∈ w2, isWs c = true) :
    numGuard v (renderObjTail depth kvs ++ (w2 ++ braceClose :: rest)) := by
  cases v with
  | num i =>
    show noDigitHead _
    cases kvs with
    | nil =>
      rw [renderObjTail_nil]
      simp only [List.nil_append]
      exact noDigitHead_ws_append w2 braceClose rest hw2 (by decide)
    | cons kv kvs =>
      rw [renderObjTail_cons]
      exact (by decide : (',' : Char).isDigit = false)
  | null => exact trivial
  | bool b => exact trivial
  | str s => exact trivial
  | arr l => exact trivial
  | obj l => exact trivial

theorem parseElems_step (f : Nat) (s r : List Char) (j : Json) (acc : List Json)
    (h : parseVal f s = some (j, r)) :
    parseElems (f + 1) s acc
      = (match skipWs r with
        | c :: r2 =>
          if c = ',' then parseElems f r2 (j :: acc)
          else if c = ']' then some (.arr (j :: acc).reverse, r2)
          else none
        | [] => none) := by
  rw [parseElems_succ, h]

theorem parseVal_bracket_skip (f : Nat) (c : Char) (x y : List Char)
    (hskip : skipWs y = c :: x) (hcne : c ≠ ']') :
    parseVal (f + 1) ('[' :: y) = parseElems f (c :: x) [] := by
  rw [parseVal_bracket, hskip]
  show (if c = ']' then some (Json.arr [], x) else parseElems f (c :: x) []) = _
  rw [if_neg hcne]

theorem parseFields_quote (f : Nat) (x : List Char) (acc : List (String × Json)) :
    parseFields (f + 1) ('"' :: x) acc
      = (match parseStringGo x.length x [] with
        | none => none
        | some (key, r) =>
          match skipWs r with
          | [] => none
          | c2 :: r2 =>
            if c2 = ':' then
              match parseVal f r2 with
              | none => none
              | some (j, r3) =>
                match skipWs r3 with
                | [] => none
                | c3 :: r4 =>
                  if c3 = ',' then parseFields f r4 ((key, j) :: acc)
                  else if c3 = braceClose then
                    some (.obj ((key, j) :: acc).reverse, r4)
                  else none
            else none) := by
  rw [parseFields_succ, skipWs_cons_not_ws x (by decide)]
  rfl

theorem parseFields_step (f : Nat) (x r r2 r3 : List Char) (key : String) (j : Json)
    (acc : List (String × Json))
    (hstr : parseStringGo x.length x [] = some (key, r))
    (hcolon : skipWs r = ':' :: r2)
    (hval : parseVal f r2 = some (j, r3)) :
    parseFields (f + 1) ('"' :: x) acc
      = (match skipWs r3 with
        | [] => none
        | c3 :: r4 =>
          if c3 = ',' then parseFields f r4 ((key, j) :: acc)
          else if c3 = braceClose then some (.obj ((key, j) :: acc).reverse, r4)
          else none) := by
  rw [parseFields_quote f x acc, hstr]
  show (match skipWs r with
    | [] => none
    | c2 :: r2 =>
      if c2 = ':' then
        match parseVal f r2 with
        | none => none
        | some (j, r3) =>
          match skipWs r3 with
          | [] => none
          | c3 :: r4 =>
            if c3 = ',' then parseFields f r4 ((key, j) :: acc)
            else if c3 = braceClose then some (.obj ((key, j) :: acc).reverse, r4)
            else none
      else none) = _
  rw [hcolon]
  show (match parseVal f r2 with
    | none => none
    | some (j, r3) =>
      match skipWs r3 with
      | [] => none
      | c3 :: r4 =>
        if c3 = ',' then parseFields f r4 ((key, j) :: acc)
        else if c3 = braceClose then some (.obj ((key, j) :: acc).reverse, r4)
        else none) = _
  rw [hval]

theorem parseFields_key (f : Nat) (key : String) (y r3 : List Char) (j : Json)
    (acc : List (String × Json))
    (hval : parseVal f (' ' :: y) = some (j, r3)) :
    parseFields (f + 1) ('"' :: (escapeString key ++ '"' :: ':' :: ' ' :: y)) acc
      = (match skipWs r3 with
        | [] => none
        | c3 :: r4 =>
          if c3 = ',' then parseFields f r4 ((key, j) :: acc)
          else if c3 = braceClose then some (.obj ((key, j) :: acc).reverse, r4)
          else none) := by
  refine parseFields_step f (escapeString key ++ '"' :: ':' :: ' ' :: y)
    (':' :: ' ' :: y) (' ' :: y) r3 key j acc ?_ ?_ hval
  · exact parseString_escapeString key (':' :: ' ' :: y) _
      (by simp only [List.length_append, List.length_cons]; omega)
  · exact skipWs_cons_not_ws _ (by decide)

theorem parseFields_skipWs (f : Nat) (s : List Char) (acc : List (String × Json)) :
    parseFields (f + 1) s acc = parseFields (f + 1) (skipWs s) acc := by
  rw [parseFields_succ, parseFields_succ, skipWs_idem]

theorem parse_render_all : ∀ fuel : Nat,
    (∀ (j : Json) (depth : Nat) (w rest : List Char),
      (∀ ch ∈ w, isWs ch = true) → jsonWeight j ≤ fuel → numGuard j rest →
      parseVal fuel (w ++ renderPretty depth j ++ rest) = some (j, rest))
    ∧ (∀ (x : Json) (xs : List Json) (depth : Nat) (w w2 rest : List Char)
        (acc : List Json),
      (∀ ch ∈ w, isWs ch = true) → (∀ ch ∈ w2, isWs ch = true) →
      jsonWeight x + jsonListWeight xs ≤ fuel →
      parseElems fuel
          (w ++ renderPretty depth x ++ renderArrTail depth xs ++ w2 ++ ']' :: rest) acc
        = some (.arr (acc.reverse ++ x :: xs), rest))
    ∧ (∀ (k : String) (v : Json) (kvs : List (String × Json)) (depth : Nat)
        (w w2 rest : List Char) (acc : List (String × Json)),
      (∀ ch ∈ w, isWs ch = true) → (∀ ch ∈ w2, isWs ch = true) →
      jsonWeight v + jsonFieldsWeight kvs ≤ fuel →
      parseFields fuel
          (w ++ renderField depth (k, v) ++ renderObjTail depth kvs ++ w2
            ++ braceClose :: rest) acc
        = some (.obj (acc.reverse ++ (k, v) :: kvs), rest)) := by
  intro fuel
  induction fuel using Nat.strong_induction_on with
  | _ fuel ih =>
  refine ⟨?_, ?_, ?_⟩
  · intro j depth w rest hw hfuel hguard
    have hj := jsonWeight_pos j
    obtain ⟨f, rfl⟩ : ∃ f, fuel = f + 1 := ⟨fuel - 1, by omega⟩
    obtain ⟨ihP, ihQ, ihR⟩ := ih f (Nat.lt_succ_self f)
    cases j with
    | null =>
      rw [renderPretty_null]
      simp only [List.cons_append, List.nil_append, List.append_assoc]
      rw [parseVal_skipWs, skipWs_append_ws w _ hw, skipWs_cons_not_ws _ (by decide)]
      exact parseVal_null f rest
    | bool b =>
      cases b with
      | true =>
        rw [renderPretty_true]
        simp only [List.cons_append, List.nil_append, List.append_assoc]
        rw [parseVal_skipWs, skipWs_append_ws w _ hw, skipWs_cons_not_ws _ (by decide)]
        exact parseVal_true f rest
      | false =>
        rw [renderPretty_false]
        simp only [List.cons_append, List.nil_append, List.append_assoc]
        rw [parseVal_skipWs, skipWs_append_ws w _ hw, skipWs_cons_not_ws _ (by decide)]
        exact parseVal_false f rest
    | num i =>
      rw [renderPretty_num, intToChars]
      obtain ⟨d, ds, hnd, hd⟩ := natToDigits_head i.natAbs
      by_cases hi : i < 0
      · rw [if_pos hi, hnd]
        simp only [List.cons_append, List.nil_append, List.append_assoc]
        rw [parseVal_skipWs, skipWs_append_ws w _ hw, skipWs_cons_not_ws _ (by decide),
            parseVal_minus_digit f hd]
        rw [show digitChar d :: (ds ++ rest) = natToDigits i.natAbs ++ rest from by
          rw [hnd]; simp]
        rw [parseDigits_natToDigits i.natAbs rest hguard]
        rw [show ((i.natAbs, rest).1) = i.natAbs from rfl,
            show ((i.natAbs, rest).2) = rest from rfl]
        rw [show (-(i.natAbs : Int)) = i from by omega]
      · rw [if_neg hi, hnd]
        simp only [List.cons_append, List.nil_append, List.append_assoc]
        rw [parseVal_skipWs, skipWs_append_ws w _ hw,
            skipWs_cons_not_ws _ (digitChar_not_ws hd), parseVal_digit f hd]
        rw [show digitChar d :: (ds ++ rest) = natToDigits i.natAbs ++ rest from by
          rw [hnd]; simp]
        rw [parseDigits_natToDigits i.natAbs rest hguard]
        rw [show ((i.natAbs, rest).1) = i.natAbs from rfl,
            show ((i.natAbs, rest).2) = rest from rfl]
        rw [show ((i.natAbs : Int)) = i from by omega]
    | str s =>
      rw [renderPretty_str]
      simp only [List.cons_append, List.nil_append, List.append_assoc,
        List.singleton_append]
      rw [parseVal_skipWs, skipWs_append_ws w _ hw, skipWs_cons_not_ws _ (by decide),
          parseVal_quote]
      rw [parseString_escapeString s rest _ (by
        simp only [List.length_append, List.length_cons]
        omega)]
    | arr xs =>
      cases xs with
      | nil =>
        rw [renderPretty_arrNil]
        simp only [List.cons_append, List.nil_append, List.append_assoc]
        rw [parseVal_skipWs, skipWs_append_ws w _ hw, skipWs_cons_not_ws _ (by decide),
            parseVal_bracket, skipWs_cons_not_ws _ (by decide)]
        rfl
      | cons x xs2 =>
        rw [renderPretty_arrCons]
        simp only [List.cons_append, List.nil_append, List.append_assoc,
          List.singleton_append]
        rw [parseVal_skipWs, skipWs_append_ws w _ hw, skipWs_cons_not_ws _ (by decide)]
        obtain ⟨c, cs, hrx, hcws, hcne⟩ := renderPretty_head (depth + 1) x
        have hQ2 := ihQ x xs2 (depth + 1) [] ('\n' :: indentChars depth) rest []
          (by intro ch hc; exact absurd hc (List.not_mem_nil ch)) (nl_indent_ws depth)
          (by rw [jsonWeight, jsonListWeight] at hfuel; omega)
        simp only [List.nil_append, List.cons_append, List.append_assoc,
          List.reverse_nil] at hQ2
        rw [hrx] at hQ2 ⊢
        simp only [List.cons_append, List.append_assoc] at hQ2 ⊢
        have hskip := skipWs_nl_indent (depth + 1)
          (c :: (cs ++ (renderArrTail (depth + 1) xs2
            ++ ('\n' :: (indentChars depth ++ (']' :: rest))))))
        rw [skipWs_cons_not_ws _ hcws] at hskip
        rw [parseVal_bracket_skip f c _ _ hskip hcne, hQ2]
    | obj kvs =>
      cases kvs with
      | nil =>
        rw [renderPretty_objNil]
        simp only [List.cons_append, List.nil_append, List.append_assoc]
        rw [parseVal_skipWs, skipWs_append_ws w _ hw, skipWs_cons_not_ws _ (by decide),
            parseVal_brace, skipWs_cons_not_ws _ (by decide)]
        rfl
      | cons kv kvs2 =>
        obtain ⟨k, v⟩ := kv
        rw [renderPretty_objCons, renderField_eq]
        simp only [List.cons_append, List.nil_append, List.append_assoc,
          List.singleton_append]
        rw [parseVal_skipWs, skipWs_append_ws w _ hw, skipWs_cons_not_ws _ (by decide),
            parseVal_brace, skipWs_nl_indent, skipWs_cons_not_ws _ (by decide)]
        have hR2 := ihR k v kvs2 (depth + 1) [] ('\n' :: indentChars depth) rest []
          (by intro ch hc; exact absurd hc (List.not_mem_nil ch)) (nl_indent_ws depth)
          (by rw [jsonWeight, jsonFieldsWeight,
                show (((k, v) : String × Json)).2 = v from rfl] at hfuel
              omega)
        rw [renderField_eq] at hR2
        simp only [List.nil_append, List.cons_append, List.append_assoc,
          List.reverse_nil] at hR2
        exact hR2
  · intro x xs depth w w2 rest acc hw hw2 hfuel
    have hx := jsonWeight_pos x
    have hxs := jsonListWeight_pos xs
    obtain ⟨f, rfl⟩ : ∃ f, fuel = f + 1 := ⟨fuel - 1, by omega⟩
    obtain ⟨ihP, ihQ, ihR⟩ := ih f (Nat.lt_succ_self f)
    simp only [List.append_assoc]
    have hP1 := ihP x depth w (renderArrTail depth xs ++ (w2 ++ ']' :: rest)) hw
      (by omega) (numGuard_arrTail x depth xs w2 rest hw2)
    simp only [List.append_assoc] at hP1
    rw [parseElems_step f _ _ x acc hP1]
    cases xs with
    | nil =>
      rw [renderArrTail_nil]
      simp only [List.nil_append]
      rw [skipWs_append_ws w2 _ hw2, skipWs_cons_not_ws _ (by decide)]
      show some (Json.arr (x :: acc).reverse, rest) = _
      rw [List.reverse_cons]
    | cons y ys =>
      rw [renderArrTail_cons]
      simp only [List.cons_append, List.append_assoc]
      rw [skipWs_cons_not_ws _ (by decide)]
      have hQ2 := ihQ y ys depth ('\n' :: indentChars depth) w2 rest (x :: acc)
        (nl_indent_ws depth) hw2 (by rw [jsonListWeight] at hfuel; omega)
      simp only [List.cons_append, List.append_assoc] at hQ2
      exact hQ2.trans (by simp [List.reverse_cons])
  · intro k v kvs depth w w2 rest acc hw hw2 hfuel
    have hv := jsonWeight_pos v
    have hkvs := jsonFieldsWeight_pos kvs
    obtain ⟨f, rfl⟩ : ∃ f, fuel = f + 1 := ⟨fuel - 1, by omega⟩
    obtain ⟨ihP, ihQ, ihR⟩ := ih f (Nat.lt_succ_self f)
    rw [renderField_eq]
    simp only [List.cons_append, List.append_assoc]
    rw [parseFields_skipWs, skipWs_append_ws w _ hw, skipWs_cons_not_ws _ (by decide)]
    have hP1 := ihP v depth [' '] (renderObjTail depth kvs ++ (w2 ++ braceClose :: rest))
      (by intro ch hc; rw [List.mem_singleton] at hc; rw [hc]; decide)
      (by omega) (numGuard_objTail v depth kvs w2 rest hw2)
    simp only [List.cons_append, List.nil_append, List.append_assoc] at hP1
    rw [parseFields_key f k _ _ v acc hP1]
    cases kvs with
    | nil =>
      rw [renderObjTail_nil]
      simp only [List.nil_append]
      rw [skipWs_append_ws w2 _ hw2, skipWs_cons_not_ws _ (by decide)]
      show some (Json.obj ((k, v) :: acc).reverse, rest) = _
      rw [List.reverse_cons]
    | cons kv2 kvs2 =>
      obtain ⟨k2, v2⟩ := kv2
      rw [renderObjTail_cons]
      simp only [List.cons_append, List.append_assoc]
      rw [skipWs_cons_not_ws _ (by decide)]
      have hR2 := ihR k2 v2 kvs2 depth ('\n' :: indentChars depth) w2 rest ((k, v) :: acc)
        (nl_indent_ws depth) hw2
        (by rw [jsonFieldsWeight, show (((k2, v2) : String × Json)).2 = v2 from rfl] at hfuel
            omega)
      simp only [List.cons_append, List.append_assoc] at hR2
      exact hR2.trans (by simp [List.reverse_cons])

theorem parseJson_stringifyPretty (j : Json) :
    parseJson (stringifyPretty j) = some j := by
  have h := (parse_render_all ((renderPretty 0 j).length + 1)).1 j 0 [] []
    (by intro ch hc; exact absurd hc (List.not_mem_nil ch))
    (jsonWeight_le_render j 0) (numGuard_nil j)
  simp only [List.nil_append, List.append_nil] at h
  rw [parseJson, show (stringifyPretty j).toList = renderPretty 0 j from rfl,
      show (stringifyPretty j).length = (renderPretty 0 j).length from rfl, h]
  rfl

theorem decodeLink_enc (l : LinkRef) : decodeLink (encodeLink l) = some l := rfl

theorem decodeSearchValues_enc (v : SearchValues) :
    decodeSearchValues (encodeSearchValues v) = some v := rfl

theorem asNat_encodeNat (t : Nat) : asNat (encodeNat t) = some t := by
  rw [encodeNat, asNat, if_neg (show ¬ Int.ofNat t < 0 from not_lt.mpr (Int.ofNat_zero_le t))]
  simp

theorem asOptStr_enc (o : Option String) : asOptStr (encodeOptStr o) = some o := by
  cases o <;> rfl

theorem asOptNat_enc (o : Option Nat) : asOptNat (encodeOptNat o) = some o := by
  cases o with
  | none => rfl
  | some t =>
    rw [encodeOptNat, asOptNat, if_neg (show ¬ Int.ofNat t < 0 from not_lt.mpr (Int.ofNat_zero_le t))]
    simp

theorem decodeStrs_map (l : List String) :
    asStrList.decodeStrs (l.map Json.str) = some l := by
  induction l with
  | nil => rfl
  | cons s l ih => simp [asStrList.decodeStrs, asStr, ih]

theorem asStrList_enc (l : List String) : asStrList (encodeStrList l) = some l := by
  rw [encodeStrList, asStrList]
  exact decodeStrs_map l

theorem decodePairs_map (l : List (String × String)) :
    asStrPairs.decodePairs (l.map (fun kv => (kv.1, Json.str kv.2))) = some l := by
  induction l with
  | nil => rfl
  | cons kv l ih => simp [asStrPairs.decodePairs, asStr, ih]

theorem asStrPairs_enc (l : List (String × String)) :
    asStrPairs (encodeStrPairs l) = some l := by
  rw [encodeStrPairs, asStrPairs]
  exact decodePairs_map l

theorem decodeLinks_map (ls : List LinkRef) :
    decodeLinks (ls.map encodeLink) = some ls := by
  induction ls with
  | nil => rfl
  | cons l ls ih => simp [decodeLinks, decodeLink_enc, ih]

theorem decodeSnapshot_enc (s : SearchSnapshot) :
    decodeSnapshot (encodeSnapshot s) = some s := by
  simp [decodeSnapshot, encodeSnapshot, jGet, asStr, asNat_encodeNat,
    decodeSearchValues_enc, decodeLinks_map]

theorem decodeSnapshots_map (ss : List SearchSnapshot) :
    decodeSnapshots (ss.map encodeSnapshot) = some ss := by
  induction ss with
  | nil => rfl
  | cons s ss ih => simp [decodeSnapshots, decodeSnapshot_enc, ih]

theorem decodeFinding_enc (f : Finding) : decodeFinding (encodeFinding f) = some f := by
  simp [decodeFinding, encodeFinding, jGet, asStr, asNat_encodeNat, asOptStr_enc,
    asStrList_enc]

theorem decodeFindings_map (fs : List Finding) :
    decodeFindings (fs.map encodeFinding) = some fs := by
  induction fs with
  | nil => rfl
  | cons f fs ih => simp [decodeFindings, decodeFinding_enc, ih]

theorem decodeNote_enc (n : Note) : decodeNote (encodeNote n) = some n := by
  simp [decodeNote, encodeNote, jGet, asStr, asNat_encodeNat]

theorem decodeNotes_map (ns : List Note) :
    decodeNotes (ns.map encodeNote) = some ns := by
  induction ns with
  | nil => rfl
  | cons n ns ih => simp [decodeNotes, decodeNote_enc, ih]

theorem decodeEvent_enc (e : TimelineEvent) : decodeEvent (encodeEvent e) = some e := by
  simp [decodeEvent, encodeEvent, jGet, asStr, asNat_encodeNat]

theorem decodeEvents_map (es : List TimelineEvent) :
    decodeEvents (es.map encodeEvent) = some es := by
  induction es with
  | nil => rfl
  | cons e es ih => simp [decodeEvents, decodeEvent_enc, ih]

theorem decodeMeta_enc (m : CaseMeta) : decodeMeta (encodeMeta m) = some m := by
  simp [decodeMeta, encodeMeta, jGet, asStr, asStrPairs_enc, asOptNat_enc]

theorem decodeCase_enc (c : Case) : decodeCase (encodeCase c) = some c := by
  simp [decodeCase, encodeCase, jGet, asStr, asNat_encodeNat, asStrList_enc,
    asStrPairs_enc, decodeSnapshots_map, decodeFindings_map, decodeNotes_map,
    decodeEvents_map, decodeMeta_enc]

/-- C8: JSON serialization round-trip: for every case stored under `cid`,
exporting it with format "json" and deserializing the export's content
string (JSON.parse followed by reading every data-model field back) yields
exactly the original case. -/
theorem json_roundtrip (s : Store) (cid isoNow : String) (now : Nat) (c : Case)
    (hc : getCase s cid = some c) :
    ((exportCase s cid "json" isoNow now).map ExportData.content).bind deserializeCase
      = some c := by
  rw [exportCase, hc]
  show deserializeCase (stringifyPretty (encodeCase c)) = some c
  rw [deserializeCase, parseJson_stringifyPretty]
  exact decodeCase_enc c

/-- Witness for C8 at the concrete one-case store. -/
theorem json_roundtrip_witness :
    getCase store1 "case-1" = some (mkNewCase sampleCaseData "case-1" 100)
    ∧ ((exportCase store1 "case-1" "json" sampleIso 100).map ExportData.content).bind
        deserializeCase
      = some (mkNewCase sampleCaseData "case-1" 100) :=
  ⟨rfl, json_roundtrip store1 "case-1" sampleIso 100
    (mkNewCase sampleCaseData "case-1" 100) rfl⟩

end Spectre
